import Mathlib

/-!
# Signup bot: signup domain logic, command dispatch chain and trial storage

A shallow embedding of the Go sources

* `pkg/commands/helpers.go` (signup domain logic, role parsing, display),
* `pkg/msghandler/msghandler.go` (command dispatch chain),
* `pkg/storage/bolttrialapi.go` (trial storage over a bolt bucket),
* `pkg/commands/config.go` (the command `set`),
* `pkg/commands/user_withdraw.go` (the command `withdraw`),

followed by theorems about the embedded functions.

Conventions of the embedding.

* Go strings are `String`.  `strings.ToLower` is a library function; every
  function that calls it takes it as the parameter `ToLower`, so that the
  theorems hold for whatever lowering function the library implements.  The
  same holds for `strconv.Atoi`, `proto.Unmarshal` and the serializer.
* `uint64` capacities are natural numbers.  In the comparison with
  `uint64(len(...))` a slice length is never negative and is below `2^63`, so
  the conversion is the identity and no wrap-around occurs; the conversion
  `uint64(roleCt)` of a parsed `int` is the value modulo `2^64` (`toUint64`).
* Methods that mutate their receiver become functions returning the new value.
-/

namespace SignupBot

/-! ## Data model (`storage.TrialSignup`, `storage.RoleCount`, `storage.Trial`) -/

/-- One signup: the getters `GetName` and `GetRole` of `storage.TrialSignup`. -/
structure TrialSignup where
  name : String
  role : String
deriving DecidableEq, Repr

/-- One role slot: the getters `GetRole`, `GetCount` (a `uint64`) and `GetEmoji`
of `storage.RoleCount`. -/
structure RoleCount where
  role : String
  count : Nat
  emoji : String
deriving DecidableEq, Repr

/-- The type `storage.TrialState`. -/
inductive TrialState where
  | Open
  | Closed
deriving DecidableEq, Repr

/-- The data behind the getters of the interface `storage.Trial`. -/
structure Trial where
  name : String
  description : String
  signupChannel : String
  announceChannel : String
  state : TrialState
  roleCounts : List RoleCount
  signups : List TrialSignup
deriving DecidableEq, Repr

/-- The errors that the embedded functions return or compare against.
`wrapped msg cause` is an `errors.Error` whose `Cause()` is `cause`
(the result of `errors.Wrap`); every other constructor has a nil cause. -/
inductive CmdError where
  | ErrUnknownRole
  | ErrUnauthorized
  | ErrNoResponse
  | ErrUnknownCommand
  | ErrNotACommand
  | ErrTrialNotExist
  | ErrTxNotWritable
  | other (msg : String)
  | wrapped (msg : String) (cause : CmdError)
deriving DecidableEq, Repr

/-! ## `pkg/commands/helpers.go` -/

/-- The function `signupsForRole` of helpers.go: the names of the signups whose
role equals `role` after lowering, in the order of `signups`; sorted with
`sort.Strings` when `sorted` is set (the order of `String` is the
lexicographic order on code points, which is the byte order of UTF-8). -/
def signupsForRole (ToLower : String → String) (role : String)
    (signups : List TrialSignup) (sorted : Bool) : List String :=
  let roleLower := ToLower role
  let t := signups.foldl
    (fun t s => if ToLower s.role = roleLower then t ++ [s.name] else t) []
  if sorted then t.insertionSort (fun a b => a ≤ b) else t

/-- The function `roleCountByName` of helpers.go: the first role count whose
role equals `role` after lowering; `none` stands for `(nil, false)`. -/
def roleCountByName (ToLower : String → String) (role : String) :
    List RoleCount → Option RoleCount
  | [] => none
  | rc :: rest =>
    if ToLower rc.role = ToLower role then some rc
    else roleCountByName ToLower role rest

/-- One iteration of the loop of `getTrialRoleSignups`. -/
def getTrialRoleSignupsStep (ToLower : String → String) (rc : RoleCount)
    (acc : List String × List String) (su : TrialSignup) :
    List String × List String :=
  if ToLower su.role ≠ ToLower rc.role then acc
  else if acc.1.length < rc.count then (acc.1 ++ [su.name], acc.2)
  else (acc.1, acc.2 ++ [su.name])

/-- The function `getTrialRoleSignups` of helpers.go: the pair
`(suNames, ofNames)`. -/
def getTrialRoleSignups (ToLower : String → String) (signups : List TrialSignup)
    (rc : RoleCount) : List String × List String :=
  signups.foldl (getTrialRoleSignupsStep ToLower rc) ([], [])

/-- The function `signupUser` of helpers.go.  The argument `trial` is a value of
the interface `storage.Trial`; its method `AddSignup` is the parameter
`AddSignup`.  The result is the trial after the call together with the returned
pair `(overflow, err)`. -/
def signupUser (ToLower : String → String)
    (AddSignup : Trial → String → String → Trial)
    (trial : Trial) (userMentionStr role : String) :
    Trial × Bool × Option CmdError :=
  let roleCounts := trial.roleCounts
  match roleCountByName ToLower role roleCounts with
  | none => (trial, false, some CmdError.ErrUnknownRole)
  | some rc =>
    let trial1 := AddSignup trial userMentionStr role
    let signups := trial1.signups
    let roleSignups := signupsForRole ToLower role signups false
    let overflow := decide (roleSignups.length > rc.count)
    (trial1, overflow, none)

/-- Modelled from the spec: the method `AddSignup` of the trial record
(`boltTrial`, not among the sources): it appends a signup `(name, role)` at
the end of the signup list and changes nothing else. -/
def Trial.AddSignup (t : Trial) (name role : String) : Trial :=
  { t with signups := t.signups ++ [{ name := name, role := role }] }

/-! ## `pkg/msghandler/msghandler.go` -/

/-- The method `Cause` of `errors.Error`: nil unless the error wraps another. -/
def CmdError.Cause : CmdError → Option CmdError
  | CmdError.wrapped _ cause => some cause
  | _ => none

/-- The library function `strings.HasPrefix`. -/
def HasPrefix (s pre : String) : Bool :=
  pre.data.isPrefixOf s.data

/-- The library function `strings.TrimPrefix`. -/
def TrimPrefix (s pre : String) : String :=
  if HasPrefix s pre then String.mk (s.data.drop pre.data.length) else s

/-- The library predicate `unicode.IsSpace`. -/
def isSpace (c : Char) : Bool :=
  let n := c.toNat
  (9 ≤ n && n ≤ 13) || n = 32 || n = 0x85 || n = 0xA0 || n = 0x1680
    || (0x2000 ≤ n && n ≤ 0x200a) || n = 0x2028 || n = 0x2029 || n = 0x202f
    || n = 0x205f || n = 0x3000

/-- The library function `strings.TrimSpace`. -/
def TrimSpace (s : String) : String :=
  String.mk ((s.data.dropWhile isSpace).reverse.dropWhile isSpace).reverse

/-- The fields of `storage.GuildSettings` that the handlers read. -/
structure GuildSettings where
  ControlSequence : String
  AdminChannel : String
  AdminRole : String
  ShowAfterWithdraw : String
deriving DecidableEq, Repr

/-- A `cmdhandler.Message`: author, guild, channel, message id and contents. -/
structure Message where
  userID : Nat
  guildID : Nat
  channelID : Nat
  messageID : Nat
  contents : String
deriving DecidableEq, Repr

/-- A `cmdhandler.Response`, as far as `handleMessage` uses it. -/
structure Response where
  toUser : String
  description : String
  channel : Nat
  errors : List CmdError
  color : Int
deriving DecidableEq, Repr

/-- The library method `IncludeError` of a response. -/
def Response.IncludeError (r : Response) (err : CmdError) : Response :=
  { r with errors := r.errors ++ [err] }

/-- The library method `HasErrors` of a response. -/
def Response.HasErrors (r : Response) : Bool :=
  !r.errors.isEmpty

/-- The library method `SetColor` of a response. -/
def Response.SetColor (r : Response) (color : Int) : Response :=
  { r with color := color }

/-- The four command handlers of the dependencies: `DebugHandler`,
`ConfigHandler`, `AdminHandler` and `CommandHandler` (the user tier). -/
inductive Tier where
  | Debug
  | Config
  | Admin
  | User
deriving DecidableEq, Repr

/-- Position of a tier in the order Debug, Config, Admin, User. -/
def Tier.rank : Tier → Nat
  | Tier.Debug => 0
  | Tier.Config => 1
  | Tier.Admin => 2
  | Tier.User => 3

/-- What `handleMessage` does to the outside, in order: a call of the method
`HandleMessage` of one of the four handlers, or a call of `bot.SendMessage`. -/
inductive Event where
  | handle (t : Tier) (msg : Message)
  | send (sendTo : Nat) (res : Response)
deriving DecidableEq, Repr

/-- The collaborators of `handlers`: the `dependencies` interface, the bot, and
the functions of the package that are not among the sources
(`IsAdminAuthorized`, `IsAdminChannel`, `storage.GetSettings`).
`HandleMessage t` is the method `HandleMessage` of the handler of tier `t`,
`CommandIndicator t` its method `CommandIndicator`; `Wait k` and
`SendMessage k` are the rate limiter and the bot at the `k`-th message of a
response (`none` is a nil error). -/
structure Deps where
  GetSettings : Nat → GuildSettings × Option CmdError
  IsAdminAuthorized : Message → String → Bool
  IsAdminChannel : Message → String → Bool
  HandleMessage : Tier → Message → Option Response × Option CmdError
  CommandIndicator : Tier → String
  GuildOfChannel : Nat → Nat
  Split : Response → List Response
  Wait : Nat → Option CmdError
  SendMessage : Nat → Nat → Response → Option CmdError

/-- The struct `handlers`; `botSet` tells whether `h.bot` is non-nil. -/
structure handlers where
  botSet : Bool
  deps : Deps
  defaultCommandIndicator : String
  successColor : Int
  errorColor : Int

/-- The message that `etfapi.MessageFromElementMap` inflates from a payload. -/
structure InMessage where
  isDefaultMessage : Bool
  channelID : Nat
  authorID : Nat
  id : Nat
  content : String
deriving DecidableEq, Repr

/-- The inbound request: whether its context is already done, and the result of
`etfapi.MessageFromElementMap` on the payload (`none` when it fails). -/
structure Inbound where
  ctxDone : Bool
  decoded : Option InMessage
deriving DecidableEq, Repr

/-- The method `guildCommandIndicator`. -/
def guildCommandIndicator (h : handlers) (gid : Nat) : String :=
  if gid = 0 then h.defaultCommandIndicator
  else
    match h.deps.GetSettings gid with
    | (_, some _) => h.defaultCommandIndicator
    | (s, none) =>
      if s.ControlSequence = "" then h.defaultCommandIndicator
      else s.ControlSequence

/-- The method `attemptConfigAndAdminHandlers`: the handler calls it makes, in
order, and the returned pair `(resp, err)`. -/
def attemptConfigAndAdminHandlers (h : handlers) (msg : Message)
    (cmdIndicator content : String) :
    List Event × Option Response × Option CmdError :=
  let s := (h.deps.GetSettings msg.guildID).1
  if !h.deps.IsAdminAuthorized msg s.AdminRole then
    ([], none, some CmdError.ErrUnauthorized)
  else
    let msgD := { msg with contents := content }
    match h.deps.HandleMessage Tier.Debug msgD with
    | (resp, none) => ([Event.handle Tier.Debug msgD], resp, none)
    | (resp, some err0) =>
      let err := match err0.Cause with
        | some cause => cause
        | none => err0
      if err ≠ CmdError.ErrUnauthorized ∧ err ≠ CmdError.ErrUnknownCommand
          ∧ err ≠ CmdError.ErrNotACommand then
        ([Event.handle Tier.Debug msgD], resp, some err)
      else
        let cmdContent := h.deps.CommandIndicator Tier.Config ++ TrimPrefix content cmdIndicator
        let msgC := { msg with contents := cmdContent }
        match h.deps.HandleMessage Tier.Config msgC with
        | (resp, none) =>
          ([Event.handle Tier.Debug msgD, Event.handle Tier.Config msgC], resp, none)
        | (resp, some err) =>
          if err ≠ CmdError.ErrUnauthorized ∧ err ≠ CmdError.ErrUnknownCommand then
            ([Event.handle Tier.Debug msgD, Event.handle Tier.Config msgC], resp, some err)
          else
            let cmdContent := h.deps.CommandIndicator Tier.Admin ++ TrimPrefix content cmdIndicator
            let msgA := { msg with contents := cmdContent }
            ([Event.handle Tier.Debug msgD, Event.handle Tier.Config msgC,
              Event.handle Tier.Admin msgA], h.deps.HandleMessage Tier.Admin msgA)

/-- Lines 207 to 213 of `handleMessage`: the call of
`attemptConfigAndAdminHandlers` followed by the fall-through to the user
handler.  The result is the handler calls made and the pair `(resp, err)`
that the rest of `handleMessage` works on. -/
def dispatchChain (h : handlers) (msg : Message) (cmdIndicator content : String) :
    List Event × Option Response × Option CmdError :=
  match attemptConfigAndAdminHandlers h msg cmdIndicator content with
  | (tr, resp, err) =>
    if err = some CmdError.ErrUnauthorized ∨ err = some CmdError.ErrUnknownCommand then
      let cmdContent := h.deps.CommandIndicator Tier.User ++ TrimPrefix content cmdIndicator
      let msgU := { msg with contents := cmdContent }
      (tr ++ [Event.handle Tier.User msgU], h.deps.HandleMessage Tier.User msgU)
    else (tr, resp, err)

/-- The sending loop of `handleMessage` (lines 241 to 263), from the `k`-th
part of the split response on: it stops at the first failure of the rate
limiter or of `SendMessage`. -/
def sendLoop (h : handlers) (sendTo : Nat) : Nat → List Response → List Event
  | _, [] => []
  | k, res :: rest =>
    match h.deps.Wait k with
    | some _ => []
    | none =>
      match h.deps.SendMessage k sendTo res with
      | some _ => [Event.send sendTo res]
      | none => Event.send sendTo res :: sendLoop h sendTo (k + 1) rest

/-- What a run of `handleMessage` does: the events in order, and the returned
guild id; `ret = none` when the run ends in the run-time panic of a method
call on a nil response. -/
structure HandleResult where
  trace : List Event
  ret : Option Nat
deriving DecidableEq, Repr

/-- Lines 215 to 267 of `handleMessage`: what is done with the pair
`(resp, err)` of the dispatch chain. -/
def deliver (h : handlers) (m : InMessage) (gid : Nat) (tr : List Event)
    (resp : Option Response) (err : Option CmdError) : HandleResult :=
  if err = some CmdError.ErrNoResponse ∨ err = some CmdError.ErrUnknownCommand then
    { trace := tr, ret := some gid }
  else
    match resp with
    | none => { trace := tr, ret := none }
    | some resp =>
      let resp := match err with
        | some e => resp.IncludeError e
        | none => resp
      let resp := if resp.HasErrors then resp.SetColor h.errorColor
        else resp.SetColor h.successColor
      let sendTo := if resp.channel = 0 then m.channelID else resp.channel
      let splitResp := h.deps.Split resp
      { trace := tr ++ sendLoop h sendTo 0 splitResp, ret := some gid }

/-- The method `handleMessage`. -/
def handleMessage (h : handlers) (req : Inbound) : HandleResult :=
  if !h.botSet then { trace := [], ret := some 0 }
  else if req.ctxDone then { trace := [], ret := some 0 }
  else
    match req.decoded with
    | none => { trace := [], ret := some 0 }
    | some m =>
      if !m.isDefaultMessage then { trace := [], ret := some 0 }
      else
        let gid := h.deps.GuildOfChannel m.channelID
        let content := m.content
        if content = "" then { trace := [], ret := some gid }
        else
          let cmdIndicator := guildCommandIndicator h gid
          if !HasPrefix content cmdIndicator && !HasPrefix content "!config-su-debug" then
            { trace := [], ret := some gid }
          else
            let content := TrimSpace content
            let msg : Message := ⟨m.authorID, gid, m.channelID, m.id, ""⟩
            match dispatchChain h msg cmdIndicator content with
            | (tr, resp, err) => deliver h m gid tr resp err

/-- The tiers whose handler was called, in the order of the calls. -/
def tiersOf : List Event → List Tier
  | [] => []
  | Event.handle t _ :: rest => t :: tiersOf rest
  | Event.send _ _ :: rest => tiersOf rest

/-- The calls of `SendMessage` in a trace. -/
def sendsOf : List Event → List (Nat × Response)
  | [] => []
  | Event.handle _ _ :: rest => sendsOf rest
  | Event.send c r :: rest => (c, r) :: sendsOf rest

/-- The error that the chain keeps from a tier: at the Debug tier an error
with a cause is replaced by its cause (lines 133 to 135), elsewhere the error
is kept as returned. -/
def tierErr : Tier → CmdError → CmdError
  | Tier.Debug, e =>
    match e.Cause with
    | some cause => cause
    | none => e
  | _, e => e

/-- The errors on which the chain goes on to the next tier: at the Debug tier
`ErrUnauthorized`, `ErrUnknownCommand` and `ErrNotACommand` (line 137, tested
on the cause when there is one), at the Config tier (line 149) and the Admin
tier (line 209) `ErrUnauthorized` and `ErrUnknownCommand`; nothing follows the
User tier. -/
def fallsThrough : Tier → Option CmdError → Bool
  | _, none => false
  | Tier.Debug, some e =>
    decide (tierErr Tier.Debug e = CmdError.ErrUnauthorized
      ∨ tierErr Tier.Debug e = CmdError.ErrUnknownCommand
      ∨ tierErr Tier.Debug e = CmdError.ErrNotACommand)
  | Tier.Config, some e =>
    decide (e = CmdError.ErrUnauthorized ∨ e = CmdError.ErrUnknownCommand)
  | Tier.Admin, some e =>
    decide (e = CmdError.ErrUnauthorized ∨ e = CmdError.ErrUnknownCommand)
  | Tier.User, some _ => false

/-- The message that the chain passes to the handler of a tier: the trimmed
content for the Debug tier, and for the other tiers the content with the
guild indicator replaced by the indicator of that tier. -/
def tierMessage (h : handlers) (msg : Message) (cmdIndicator content : String) :
    Tier → Message
  | Tier.Debug => { msg with contents := content }
  | t => { msg with contents := h.deps.CommandIndicator t ++ TrimPrefix content cmdIndicator }

/-- The gate of `attemptConfigAndAdminHandlers` (line 120): the result of
`IsAdminAuthorized` on the message and the admin role of the guild settings. -/
def adminGate (h : handlers) (msg : Message) : Bool :=
  h.deps.IsAdminAuthorized msg (h.deps.GetSettings msg.guildID).1.AdminRole

/-- The message that `handleMessage` builds at line 205 from the inflated
message: author, guild of the channel, channel, id and empty contents. -/
def messageOf (h : handlers) (m : InMessage) : Message :=
  ⟨m.authorID, h.deps.GuildOfChannel m.channelID, m.channelID, m.id, ""⟩

/-- The inbound request gets past every early return of `handleMessage` up to
and including the command-prefix check of line 198, with inflated message `m`. -/
def reachesDispatch (h : handlers) (req : Inbound) (m : InMessage) : Prop :=
  h.botSet = true ∧ req.ctxDone = false ∧ req.decoded = some m
    ∧ m.isDefaultMessage = true ∧ m.content ≠ ""
    ∧ (HasPrefix m.content (guildCommandIndicator h (h.deps.GuildOfChannel m.channelID)) = true
        ∨ HasPrefix m.content "!config-su-debug" = true)

/-- The admin-authorization check in the words of the specification: the caller
is in the admin channel and holds the admin role, or the admin channel is
unset.  It is compared with `adminGate`, the check that the code makes. -/
def specAdminCheck (h : handlers) (msg : Message) : Bool :=
  let s := (h.deps.GetSettings msg.guildID).1
  (h.deps.IsAdminChannel msg s.AdminChannel && h.deps.IsAdminAuthorized msg s.AdminRole)
    || s.AdminChannel == ""

/-! ## `pkg/storage/bolttrialapi.go` -/

/-- A byte string: the value stored under a key, as a list of byte values. -/
abbrev Bytes := List Nat

/-- The content of the bolt bucket of one guild: the stored key and value
pairs, at most one per key. -/
abbrev Bucket := List (String × Bytes)

/-- The library method `Get` of a bolt bucket; `none` is the nil value that it
returns for a key that is not in the bucket. -/
def Bucket.Get (b : Bucket) (key : String) : Option Bytes :=
  b.lookup key

/-- The struct `boltTrialAPITx`: a transaction on the bucket of one guild;
`writable` is the flag it was begun with, `bucket` the content of the bucket as
the transaction sees it. -/
structure boltTrialAPITx where
  writable : Bool
  bucket : Bucket
deriving DecidableEq, Repr

/-- The library method `Delete` of a bolt bucket inside a transaction: an
error in a read-only transaction; otherwise the key is removed, and removing a
key that is not there is not an error. -/
def boltTrialAPITx.bucketDelete (b : boltTrialAPITx) (key : String) :
    boltTrialAPITx × Option CmdError :=
  if !b.writable then (b, some CmdError.ErrTxNotWritable)
  else ({ b with bucket := b.bucket.filter (fun kv => kv.1 ≠ key) }, none)

/-- The method `GetTrial` of `boltTrialAPITx`.  `Unmarshal` is the library
function `proto.Unmarshal` into a trial record (`none` is a nil error). -/
def boltTrialAPITx.GetTrial (ToLower : String → String)
    (Unmarshal : Bytes → Option Trial × Option CmdError)
    (b : boltTrialAPITx) (name : String) : Option Trial × Option CmdError :=
  let bucket := b.bucket
  let val := match bucket.Get (ToLower name) with
    | some v => some v
    | none => bucket.Get name
  match val with
  | none => (none, some CmdError.ErrTrialNotExist)
  | some val =>
    match Unmarshal val with
    | (_, some err) => (none, some (CmdError.wrapped "trial record is corrupt" err))
    | (protoTrial, none) => (protoTrial, none)

/-- The method `DeleteTrial` of `boltTrialAPITx`: the transaction after the
call and the returned error. -/
def boltTrialAPITx.DeleteTrial (ToLower : String → String)
    (Unmarshal : Bytes → Option Trial × Option CmdError)
    (b : boltTrialAPITx) (name : String) : boltTrialAPITx × Option CmdError :=
  match b.GetTrial ToLower Unmarshal name with
  | (_, some err) => (b, some err)
  | (_, none) =>
    let name := ToLower name
    b.bucketDelete name

/-- The keys of a bolt bucket are kept in byte order, which for UTF-8 strings is
the order of `String`: the entry `(key, value)` replaces the entry of the same
key, or is put before the first entry with a greater key. -/
def Bucket.insert : Bucket → String → Bytes → Bucket
  | [], key, value => [(key, value)]
  | (k, v) :: rest, key, value =>
    if key = k then (key, value) :: rest
    else if key < k then (key, value) :: (k, v) :: rest
    else (k, v) :: Bucket.insert rest key value

/-- The library method `Put` of a bolt bucket inside a transaction: an error in
a read-only transaction, for an empty key, for a key of more than 32768 bytes
and for a value of more than `2^31 - 2` bytes; otherwise the value is stored
under the key, replacing the value that was there. -/
def boltTrialAPITx.bucketPut (b : boltTrialAPITx) (key : String) (value : Bytes) :
    boltTrialAPITx × Option CmdError :=
  if !b.writable then (b, some CmdError.ErrTxNotWritable)
  else if key = "" then (b, some (CmdError.other "key required"))
  else if key.utf8ByteSize > 32768 then (b, some (CmdError.other "key too large"))
  else if value.length > 2147483646 then (b, some (CmdError.other "value too large"))
  else ({ b with bucket := b.bucket.insert key value }, none)

/-- Modelled from the spec: the record `&ProtoTrial{Name: name}` that `AddTrial`
creates; the declaration of `ProtoTrial` is not among the sources.  Every
field but the name has its zero value, and the zero state is Open (a trial
that was just added is open and has no roles). -/
def freshTrial (name : String) : Trial :=
  { name := name, description := "", signupChannel := "", announceChannel := "",
    state := TrialState.Open, roleCounts := [], signups := [] }

/-- The method `AddTrial` of `boltTrialAPITx`; it reads the bucket and does not
change the transaction. -/
def boltTrialAPITx.AddTrial (ToLower : String → String)
    (Unmarshal : Bytes → Option Trial × Option CmdError)
    (b : boltTrialAPITx) (name : String) : Option Trial × Option CmdError :=
  let name := ToLower name
  match b.GetTrial ToLower Unmarshal name with
  | (trial, err) =>
    if err = some CmdError.ErrTrialNotExist then (some (freshTrial name), none)
    else (trial, err)

/-- The method `SaveTrial` of `boltTrialAPITx`: the transaction after the call
and the returned error.  `Serialize` is the method `Serialize` of the trial. -/
def boltTrialAPITx.SaveTrial (ToLower : String → String)
    (Serialize : Trial → Bytes × Option CmdError)
    (b : boltTrialAPITx) (t : Trial) : boltTrialAPITx × Option CmdError :=
  match Serialize t with
  | (_, some err) => (b, some err)
  | (serial, none) => b.bucketPut (ToLower t.name) serial

/-- One call of the function that `GetTrials` passes to `bucket.ForEach`. -/
def getTrialsStep (Unmarshal : Bytes → Option Trial × Option CmdError)
    (t : List Trial) (kv : String × Bytes) : List Trial :=
  match Unmarshal kv.2 with
  | (some protoTrial, none) => t ++ [protoTrial]
  | _ => t

/-- The method `GetTrials` of `boltTrialAPITx`; `bucket.ForEach` visits the
entries in key order. -/
def boltTrialAPITx.GetTrials (Unmarshal : Bytes → Option Trial × Option CmdError)
    (b : boltTrialAPITx) : List Trial :=
  b.bucket.foldl (getTrialsStep Unmarshal) []

/-- The trial that a bucket entry decodes to: `none` when `proto.Unmarshal`
returns an error on its bytes. -/
def decodeEntry (Unmarshal : Bytes → Option Trial × Option CmdError)
    (kv : String × Bytes) : Option Trial :=
  match Unmarshal kv.2 with
  | (some protoTrial, none) => some protoTrial
  | _ => none

/-! ## Library string functions used by the parsers -/

/-- Splitting a list of characters at every separator; the result of splitting
the empty list is one empty piece. -/
def splitChars (sep : Char) : List Char → List (List Char)
  | [] => [[]]
  | c :: cs =>
    if c = sep then [] :: splitChars sep cs
    else
      match splitChars sep cs with
      | [] => [[c]]
      | p :: ps => (c :: p) :: ps

/-- Splitting a list of characters into at most `n` pieces: the last piece is
the unsplit rest, and `n = 0` gives no piece. -/
def splitNChars (sep : Char) : Nat → List Char → List (List Char)
  | 0, _ => []
  | 1, cs => [cs]
  | _ + 2, [] => [[]]
  | n + 2, c :: cs =>
    if c = sep then [] :: splitNChars sep (n + 1) cs
    else
      match splitNChars sep (n + 2) cs with
      | [] => [[c]]
      | p :: ps => (c :: p) :: ps

/-- The library function `strings.Split`, for a separator of one character. -/
def Split (s : String) (sep : Char) : List String :=
  (splitChars sep s.data).map String.mk

/-- The library function `strings.SplitN`, for a separator of one character. -/
def SplitN (s : String) (sep : Char) (n : Nat) : List String :=
  (splitNChars sep n s.data).map String.mk

/-- The text before the first separator (the whole text when there is none). -/
def beforeFirst (sep : Char) (s : String) : String :=
  String.mk (s.data.takeWhile (fun c => c ≠ sep))

/-- The text after the first separator (empty when there is none). -/
def afterFirst (sep : Char) (s : String) : String :=
  String.mk ((s.data.dropWhile (fun c => c ≠ sep)).drop 1)

/-! ## `pkg/commands/config.go`: the command `set` -/

/-- The struct `argPair`. -/
structure argPair where
  key : String
  val : String
deriving DecidableEq, Repr

/-- The loop over `argList` in `configCommands.set` (lines 109 to 122), from
the pairs collected so far: the pairs, or the error of the first token that
does not split in two at "=". -/
def setArgLoop : List String → List argPair → List argPair × Option CmdError
  | [], argPairs => (argPairs, none)
  | arg :: rest, argPairs =>
    if arg = "" then setArgLoop rest argPairs
    else
      match SplitN arg '=' 2 with
      | [k, v] => setArgLoop rest (argPairs ++ [{ key := k, val := v }])
      | _ => (argPairs, some (CmdError.other ("could not parse setting '" ++ arg ++ "'")))

/-- The pair that a token `key=value` stands for: split at the first "=". -/
def argPairOf (tok : String) : argPair :=
  { key := beforeFirst '=' tok, val := afterFirst '=' tok }

/-- What `configCommands.set` does to the guild store, in order. -/
inductive GuildEvent where
  | newTransaction (writable : Bool)
  | addGuild (gid : Nat)
  | saveGuild (gid : Nat) (s : GuildSettings)
  | commit
  | rollback
deriving DecidableEq, Repr

/-- The collaborators of `configCommands.set` and `configCommands.list`: the
library function `cmdhandler.UserMentionString`, the guild API
(`NewTransaction` by its writable flag, `SaveGuild`, `Commit`), the method
`SetSettingString` of the settings and their method `PrettyString`.
`AddGuild w gid` is the method `AddGuild` of the transaction that was opened
with the writable flag `w`, with the settings of the guild record that it
returns.  `none` is a nil error. -/
structure ConfigDeps where
  UserMentionString : Nat → String
  NewTransaction : Bool → Option CmdError
  AddGuild : Bool → Nat → GuildSettings × Option CmdError
  SetSettingString : GuildSettings → String → String → GuildSettings × Option CmdError
  SaveGuild : Nat → GuildSettings → Option CmdError
  Commit : Option CmdError
  PrettyString : GuildSettings → String

/-- The loop over `argPairs` in `configCommands.set` (lines 140 to 145). -/
def setSettingsLoop (d : ConfigDeps) : GuildSettings → List argPair →
    GuildSettings × Option CmdError
  | s, [] => (s, none)
  | s, ap :: rest =>
    match d.SetSettingString s ap.key ap.val with
    | (_, some err) => (s, some err)
    | (s1, none) => setSettingsLoop d s1 rest

/-- The method `configCommands.list`: what it does to the guild store (it
opens a read-only transaction of its own, and its deferred rollback runs
last), and the returned pair `(response, err)`. -/
def configCommands.list (d : ConfigDeps) (msg : Message) :
    List GuildEvent × Response × Option CmdError :=
  let r : Response := ⟨d.UserMentionString msg.userID, "", 0, [], 0⟩
  match d.NewTransaction false with
  | some err => ([GuildEvent.newTransaction false], r, some err)
  | none =>
    match d.AddGuild false msg.guildID with
    | (_, some err) =>
      ([GuildEvent.newTransaction false, GuildEvent.addGuild msg.guildID,
        GuildEvent.rollback], r, some (CmdError.wrapped "unable to find guild" err))
    | (s, none) =>
      ([GuildEvent.newTransaction false, GuildEvent.addGuild msg.guildID,
        GuildEvent.rollback], { r with description := d.PrettyString s }, none)

/-- The method `configCommands.set`: what it does to the guild store, and the
returned pair `(response, err)`.  The deferred rollback runs last, after the
store calls of the final `c.list`. -/
def configCommands.set (d : ConfigDeps) (msg : Message) :
    List GuildEvent × Response × Option CmdError :=
  let r : Response := ⟨d.UserMentionString msg.userID, "", 0, [], 0⟩
  let args := TrimSpace msg.contents
  let argList := Split args ' '
  match setArgLoop argList [] with
  | (_, some err) => ([], r, some err)
  | (argPairs, none) =>
    if argPairs.length = 0 then ([], r, some (CmdError.other "no settings to save"))
    else
      match d.NewTransaction true with
      | some err => ([GuildEvent.newTransaction true], r, some err)
      | none =>
        match d.AddGuild true msg.guildID with
        | (_, some err) =>
          ([GuildEvent.newTransaction true, GuildEvent.addGuild msg.guildID,
            GuildEvent.rollback], r, some (CmdError.wrapped "unable to find guild" err))
        | (s, none) =>
          match setSettingsLoop d s argPairs with
          | (_, some err) =>
            ([GuildEvent.newTransaction true, GuildEvent.addGuild msg.guildID,
              GuildEvent.rollback], r, some err)
          | (s1, none) =>
            match d.SaveGuild msg.guildID s1 with
            | some err =>
              ([GuildEvent.newTransaction true, GuildEvent.addGuild msg.guildID,
                GuildEvent.saveGuild msg.guildID s1, GuildEvent.rollback], r,
                some (CmdError.wrapped "could not save guild settings" err))
            | none =>
              match d.Commit with
              | some err =>
                ([GuildEvent.newTransaction true, GuildEvent.addGuild msg.guildID,
                  GuildEvent.saveGuild msg.guildID s1, GuildEvent.commit,
                  GuildEvent.rollback], r,
                  some (CmdError.wrapped "could not save guild settings" err))
              | none =>
                match configCommands.list d { msg with contents := "" } with
                | (listed, resp, err) =>
                  (GuildEvent.newTransaction true :: GuildEvent.addGuild msg.guildID
                    :: GuildEvent.saveGuild msg.guildID s1 :: GuildEvent.commit
                    :: (listed ++ [GuildEvent.rollback]), resp, err)

/-! ## `pkg/commands/helpers.go`: `parseRolesString` -/

/-- The struct `roleCtEmo`; `ct` is a `uint64`. -/
structure roleCtEmo where
  role : String
  ct : Nat
  emo : String
deriving DecidableEq, Repr

/-- The conversion `uint64(n)` of an `int`: the value modulo `2^64`. -/
def toUint64 (n : Int) : Nat :=
  (n % 18446744073709551616).toNat

/-- The loop over `roles` in `parseRolesString` (lines 96 to 121), from the
entries collected so far.  `Atoi` is the library function `strconv.Atoi`
(`none` is a nil error). -/
def parseRolesLoop (Atoi : String → Int × Option CmdError) :
    List String → List roleCtEmo → List roleCtEmo × Option CmdError
  | [], roleEmoCt => (roleEmoCt, none)
  | roleStr :: rest, roleEmoCt =>
    if roleStr = "" then parseRolesLoop Atoi rest roleEmoCt
    else
      let roleParts := SplitN roleStr ':' 3
      if roleParts.length < 2 then
        (roleEmoCt, some (CmdError.other "could not parse roles"))
      else
        match Atoi (roleParts.getD 1 "") with
        | (_, some err) => (roleEmoCt, some err)
        | (roleCt, none) =>
          let emo := if roleParts.length = 3 then roleParts.getD 2 "" else ""
          parseRolesLoop Atoi rest
            (roleEmoCt ++ [{ role := roleParts.getD 0 "", ct := toUint64 roleCt, emo := emo }])

/-- The function `parseRolesString` of helpers.go. -/
def parseRolesString (Atoi : String → Int × Option CmdError) (args : String) :
    List roleCtEmo × Option CmdError :=
  let roles := Split (TrimSpace args) ','
  parseRolesLoop Atoi roles []

/-- The count field of an entry: the text between the first and the second
colon (up to the end when there is no second colon). -/
def countField (e : String) : String :=
  beforeFirst ':' (afterFirst ':' e)

/-- The triple that an entry `role:count[:emoji]` stands for: the role is the
text before the first colon, the count the integer of the count field as a
`uint64`, the emoji all that follows the second colon. -/
def entryTriple (Atoi : String → Int × Option CmdError) (e : String) : roleCtEmo :=
  { role := beforeFirst ':' e
    ct := toUint64 (Atoi (countField e)).1
    emo := afterFirst ':' (afterFirst ':' e) }

/-- An entry that `parseRolesString` accepts: it has a colon, and `strconv.Atoi`
accepts its count field. -/
def entryOk (Atoi : String → Int × Option CmdError) (e : String) : Prop :=
  ':' ∈ e.data ∧ (Atoi (countField e)).2 = none

/-- The value of a non-empty list of decimal digits. -/
def digitsValue : List Char → Option Nat
  | [] => none
  | cs =>
    if cs.all Char.isDigit then
      some (cs.foldl (fun n c => 10 * n + (c.toNat - 48)) 0)
    else none

/-- The integer that a text denotes in decimal: an optional sign followed by at
least one digit and nothing else; `none` for any other text. -/
def decimalInteger (s : String) : Option Int :=
  let signed : Bool × List Char :=
    match s.data with
    | '-' :: rest => (true, rest)
    | '+' :: rest => (false, rest)
    | cs => (false, cs)
  match digitsValue signed.2 with
  | none => none
  | some n => some (if signed.1 then -(n : Int) else (n : Int))

/-- The range of a 64-bit `int`. -/
def inIntRange (n : Int) : Prop :=
  -9223372036854775808 ≤ n ∧ n ≤ 9223372036854775807

/-- The library function `strconv.Atoi` with a 64-bit `int`: an optional sign
and at least one digit, nothing else; a value outside the range of `int` is an
error.  It stands for the parameter `Atoi` where a statement is about decimal
integers, and in the examples. -/
def decimalAtoi (s : String) : Int × Option CmdError :=
  let signed : Bool × List Char :=
    match s.data with
    | '-' :: rest => (true, rest)
    | '+' :: rest => (false, rest)
    | cs => (false, cs)
  match digitsValue signed.2 with
  | none => (0, some (CmdError.other "invalid syntax"))
  | some n =>
    let v : Int := if signed.1 then -(n : Int) else (n : Int)
    if v < -9223372036854775808 then
      (-9223372036854775808, some (CmdError.other "value out of range"))
    else if v > 9223372036854775807 then
      (9223372036854775807, some (CmdError.other "value out of range"))
    else (v, none)

/-! ## `pkg/commands/helpers.go`: `formatTrialDisplay` and `isSignupChannel` -/

/-- A `cmdhandler.EmbedField`. -/
structure EmbedField where
  Name : String
  Val : String
deriving DecidableEq, Repr

/-- A `cmdhandler.EmbedResponse`, as far as the handlers fill it. -/
structure EmbedResponse where
  To : String
  Title : String
  Description : String
  Fields : List EmbedField
deriving DecidableEq, Repr

/-- One iteration of the loop of `formatTrialDisplay` (lines 161 to 182): the
pair of `r.Fields` and `overflowFields` after the role count `rc`.  The verb
`%d` prints a number in decimal, `strings.Join` is `String.intercalate`. -/
def formatTrialDisplayStep (ToLower : String → String) (signups : List TrialSignup)
    (acc : List EmbedField × List EmbedField) (rc : RoleCount) :
    List EmbedField × List EmbedField :=
  match getTrialRoleSignups ToLower signups rc with
  | (suNames, ofNames) =>
    let fields :=
      if suNames.length > 0 then
        acc.1 ++ [{ Name := "*" ++ rc.role ++ "* (" ++ toString suNames.length ++ "/"
                      ++ toString rc.count ++ ")"
                    Val := rc.emoji ++ String.intercalate ("\n" ++ rc.emoji) suNames
                      ++ "\n_ _\n" }]
      else
        acc.1 ++ [{ Name := "*" ++ rc.role ++ "* (" ++ toString suNames.length ++ "/"
                      ++ toString rc.count ++ ")"
                    Val := "(empty)\n_ _\n" }]
    let overflowFields :=
      if ofNames.length > 0 then
        acc.2 ++ [{ Name := "*Overflow " ++ rc.role ++ "* (" ++ toString ofNames.length ++ ")"
                    Val := rc.emoji ++ String.intercalate ("\n" ++ rc.emoji) ofNames
                      ++ "\n_ _\n" }]
      else acc.2
    (fields, overflowFields)

/-- The function `formatTrialDisplay` of helpers.go.  `stateString` is the
conversion `string(trial.GetState())`; the string constants of the states are
not among the sources. -/
def formatTrialDisplay (ToLower : String → String) (stateString : TrialState → String)
    (trial : Trial) (withState : Bool) : EmbedResponse :=
  let title :=
    if withState then "__" ++ trial.name ++ "__ (" ++ stateString trial.state ++ ")"
    else "__" ++ trial.name ++ "__"
  let roleCounts := trial.roleCounts
  let signups := trial.signups
  match roleCounts.foldl (formatTrialDisplayStep ToLower signups) ([], []) with
  | (fields, overflowFields) =>
    { To := "", Title := title, Description := trial.description,
      Fields := fields ++ overflowFields }

/-- The active names of a role count: the first `rc.count` same-role names, in
insertion order. -/
def activeNames (ToLower : String → String) (trial : Trial) (rc : RoleCount) : List String :=
  (signupsForRole ToLower rc.role trial.signups false).take rc.count

/-- The overflow names of a role count: the same-role names after the first
`rc.count`, in insertion order. -/
def overflowNames (ToLower : String → String) (trial : Trial) (rc : RoleCount) : List String :=
  (signupsForRole ToLower rc.role trial.signups false).drop rc.count

/-! ## `pkg/commands/user_withdraw.go` -/

/-- A response without errors, addressed to the channel of the command. -/
def exResponse : Response :=
  ⟨"@user", "done", 0, [], 0⟩

/-- Collaborators for the examples: a guild whose settings name the admin
channel "officers" and the admin role "officer"; `auth` is the result of
`IsAdminAuthorized`, `inChan` that of `IsAdminChannel`, and `hm t` the result
of the handler of tier `t`.  Every handler has the indicator "!", a response
is sent in one part, and neither the rate limiter nor the sending fails. -/
def exDeps (auth inChan : Bool) (hm : Tier → Option Response × Option CmdError) : Deps :=
  { GetSettings := fun _ => (⟨"", "officers", "officer", ""⟩, none)
    IsAdminAuthorized := fun _ _ => auth
    IsAdminChannel := fun _ _ => inChan
    HandleMessage := fun t _ => hm t
    CommandIndicator := fun _ => "!"
    GuildOfChannel := fun _ => 7
    Split := fun r => [r]
    Wait := fun _ => none
    SendMessage := fun _ _ _ => none }

/-- The handlers value over `exDeps`, with a bot and the default indicator "!". -/
def exHandlers (auth inChan : Bool) (hm : Tier → Option Response × Option CmdError) :
    handlers :=
  ⟨true, exDeps auth inChan hm, "!", 1, 2⟩

/-- An inbound default message with the given content, in channel 5, from
author 9, with id 11. -/
def exInbound (content : String) : Inbound :=
  ⟨false, some ⟨true, 5, 9, 11, content⟩⟩

/-- Handler results: the Debug tier does not know the command, the Config tier
answers `ErrNotACommand`, the other tiers succeed. -/
def exNotACommandAtConfig : Tier → Option Response × Option CmdError
  | Tier.Debug => (none, some CmdError.ErrUnknownCommand)
  | Tier.Config => (some exResponse, some CmdError.ErrNotACommand)
  | _ => (some exResponse, none)

/-- Handler results: every tier answers `ErrUnauthorized`, with a response. -/
def exAllUnauthorized : Tier → Option Response × Option CmdError :=
  fun _ => (some exResponse, some CmdError.ErrUnauthorized)

/-- Handler results: every tier answers `ErrNoResponse`. -/
def exAllNoResponse : Tier → Option Response × Option CmdError :=
  fun _ => (some exResponse, some CmdError.ErrNoResponse)

/-- Handler results: every tier answers `ErrUnknownCommand`. -/
def exAllUnknown : Tier → Option Response × Option CmdError :=
  fun _ => (none, some CmdError.ErrUnknownCommand)

/-- Handler results: the Debug and Config tiers do not know the command, the
Admin tier and the User tier succeed. -/
def exAdminSucceeds : Tier → Option Response × Option CmdError
  | Tier.Debug => (none, some CmdError.ErrUnknownCommand)
  | Tier.Config => (none, some CmdError.ErrUnknownCommand)
  | _ => (some exResponse, none)

/-- Handler results: every tier succeeds. -/
def exAllSucceed : Tier → Option Response × Option CmdError :=
  fun _ => (some exResponse, none)

/-- A decoder for the examples: the empty byte string does not decode, any
other byte string decodes to an open trial named "Boss" without roles. -/
def exUnmarshal : Bytes → Option Trial × Option CmdError
  | [] => (none, some (CmdError.other "unexpected EOF"))
  | _ :: _ => (some ⟨"Boss", "", "", "", TrialState.Open, [], []⟩, none)

/-- An encoder for the examples: the bytes of a trial are the code points of
its name. -/
def exSerializeName (t : Trial) : Bytes × Option CmdError :=
  (t.name.data.map Char.toNat, none)

/-- The decoder for `exSerializeName`: no bytes do not decode, other bytes
decode to the fresh trial of the name that they spell. -/
def exUnmarshalName : Bytes → Option Trial × Option CmdError
  | [] => (none, some (CmdError.other "unexpected EOF"))
  | n :: ns => (some (freshTrial (String.mk ((n :: ns).map Char.ofNat))), none)

/-- Collaborators of `set` for the examples: a guild store that never fails and
settings that take every key. -/
def exConfigDeps : ConfigDeps :=
  { UserMentionString := fun _ => "@user"
    NewTransaction := fun _ => none
    AddGuild := fun _ _ => (⟨"", "", "", ""⟩, none)
    SetSettingString := fun s _ _ => (s, none)
    SaveGuild := fun _ _ => none
    Commit := none
    PrettyString := fun _ => "settings" }

/-- An ASCII lowering function, used to evaluate the definitions on examples. -/
def asciiLower (s : String) : String :=
  String.mk (s.data.map Char.toLower)

/-! ## Theorems: signup domain logic -/

/-- The loop of `signupsForRole`, started from any accumulator, appends the
names of the signups that satisfy the test, in order. -/
theorem foldl_names_eq (p : TrialSignup → Prop) [DecidablePred p]
    (S : List TrialSignup) (acc : List String) :
    S.foldl (fun t s => if p s then t ++ [s.name] else t) acc
      = acc ++ (S.filter (fun s => decide (p s))).map (fun s => s.name) := by
  induction S generalizing acc with
  | nil => simp
  | cons s S ih =>
    by_cases h : p s
    · simp [List.foldl_cons, h, ih]
    · simp [List.foldl_cons, h, ih]

/-- Without sorting, `signupsForRole` is a filter followed by a projection. -/
theorem signupsForRole_unsorted (ToLower : String → String) (role : String)
    (S : List TrialSignup) :
    signupsForRole ToLower role S false
      = (S.filter (fun s => decide (ToLower s.role = ToLower role))).map
          (fun s => s.name) := by
  unfold signupsForRole
  simp only [Bool.false_eq_true, if_false]
  rw [foldl_names_eq (fun s => ToLower s.role = ToLower role) S []]
  simp

/-- The loop of `getTrialRoleSignups`, started from any accumulator. -/
theorem getTrialRoleSignups_foldl (ToLower : String → String) (rc : RoleCount)
    (S : List TrialSignup) (a o : List String) :
    S.foldl (getTrialRoleSignupsStep ToLower rc) (a, o)
      = (a ++ (signupsForRole ToLower rc.role S false).take (rc.count - a.length),
         o ++ (signupsForRole ToLower rc.role S false).drop (rc.count - a.length)) := by
  induction S generalizing a o with
  | nil => simp [signupsForRole_unsorted]
  | cons s S ih =>
    rw [List.foldl_cons]
    by_cases hr : ToLower s.role = ToLower rc.role
    · by_cases hc : a.length < rc.count
      · have hstep : getTrialRoleSignupsStep ToLower rc (a, o) s = (a ++ [s.name], o) := by
          simp [getTrialRoleSignupsStep, hr, hc]
        obtain ⟨k, hk⟩ : ∃ k, rc.count - a.length = k + 1 :=
          ⟨rc.count - a.length - 1, by omega⟩
        have hk2 : rc.count - (a.length + 1) = k := by omega
        rw [hstep, ih]
        simp [signupsForRole_unsorted, hr, hk, hk2]
      · have hstep : getTrialRoleSignupsStep ToLower rc (a, o) s = (a, o ++ [s.name]) := by
          simp [getTrialRoleSignupsStep, hr, hc]
        have hk : rc.count - a.length = 0 := by omega
        rw [hstep, ih]
        simp [signupsForRole_unsorted, hr, hk]
    · have hstep : getTrialRoleSignupsStep ToLower rc (a, o) s = (a, o) := by
        simp [getTrialRoleSignupsStep, hr]
      rw [hstep, ih]
      simp [signupsForRole_unsorted, hr]

/-- Closed form of `getTrialRoleSignups`: the same-role names split at the
capacity. -/
theorem getTrialRoleSignups_eq (ToLower : String → String) (S : List TrialSignup)
    (rc : RoleCount) :
    getTrialRoleSignups ToLower S rc
      = ((signupsForRole ToLower rc.role S false).take rc.count,
         (signupsForRole ToLower rc.role S false).drop rc.count) := by
  unfold getTrialRoleSignups
  rw [getTrialRoleSignups_foldl]
  simp

/-- C1: `getTrialRoleSignups` splits the same-role names (insertion order,
case-insensitive role match, that is `signupsForRole rc.role S false`) into the
first `rc.count` of them (active) and the rest (overflow). -/
theorem getTrialRoleSignups_split (ToLower : String → String)
    (S : List TrialSignup) (rc : RoleCount) :
    (getTrialRoleSignups ToLower S rc).1 ++ (getTrialRoleSignups ToLower S rc).2
        = signupsForRole ToLower rc.role S false
    ∧ signupsForRole ToLower rc.role S false
        = (S.filter (fun s => decide (ToLower s.role = ToLower rc.role))).map
            (fun s => s.name)
    ∧ (getTrialRoleSignups ToLower S rc).1.length
        = min rc.count ((getTrialRoleSignups ToLower S rc).1.length
            + (getTrialRoleSignups ToLower S rc).2.length)
    ∧ (getTrialRoleSignups ToLower S rc).1
        = (signupsForRole ToLower rc.role S false).take rc.count
    ∧ (getTrialRoleSignups ToLower S rc).2
        = (signupsForRole ToLower rc.role S false).drop rc.count := by
  rw [getTrialRoleSignups_eq]
  refine ⟨List.take_append_drop _ _, signupsForRole_unsorted _ _ _, ?_, rfl, rfl⟩
  simp only [List.length_take, List.length_drop]
  omega

/-- `roleCountByName` finds nothing exactly when no role matches. -/
theorem roleCountByName_eq_none_iff (ToLower : String → String) (role : String)
    (rcs : List RoleCount) :
    roleCountByName ToLower role rcs = none
      ↔ ∀ rc ∈ rcs, ToLower rc.role ≠ ToLower role := by
  induction rcs with
  | nil => simp [roleCountByName]
  | cons rc rest ih =>
    by_cases h : ToLower rc.role = ToLower role
    · simp [roleCountByName, h]
    · simp [roleCountByName, h, ih]

/-- Among role counts without case-insensitive duplicates, `roleCountByName`
finds the one role count that matches. -/
theorem roleCountByName_eq_some_of_mem (ToLower : String → String) (role : String)
    (rcs : List RoleCount) (rc : RoleCount)
    (hnodup : rcs.Pairwise (fun a b => ToLower a.role ≠ ToLower b.role))
    (hmem : rc ∈ rcs) (hrole : ToLower rc.role = ToLower role) :
    roleCountByName ToLower role rcs = some rc := by
  induction rcs with
  | nil => simp at hmem
  | cons r rest ih =>
    rw [List.pairwise_cons] at hnodup
    rcases List.mem_cons.mp hmem with h | h
    · subst h
      simp [roleCountByName, hrole]
    · have hne : ToLower r.role ≠ ToLower role := by
        rw [← hrole]
        exact hnodup.1 rc h
      simp [roleCountByName, hne, ih hnodup.2 h]

/-- C2: `signupUser` returns `ErrUnknownRole` exactly when no role count of the
trial matches the role case-insensitively, and then the trial (in particular
its signup list) is returned unchanged, whatever `AddSignup` does. -/
theorem signupUser_unknownRole (ToLower : String → String)
    (AddSignup : Trial → String → String → Trial)
    (trial : Trial) (user role : String) :
    ((signupUser ToLower AddSignup trial user role).2.2 = some CmdError.ErrUnknownRole
        ↔ ∀ rc ∈ trial.roleCounts, ToLower rc.role ≠ ToLower role)
    ∧ ((∀ rc ∈ trial.roleCounts, ToLower rc.role ≠ ToLower role) →
        signupUser ToLower AddSignup trial user role
          = (trial, false, some CmdError.ErrUnknownRole)) := by
  rw [← roleCountByName_eq_none_iff]
  unfold signupUser
  cases h : roleCountByName ToLower role trial.roleCounts with
  | none => simp [h]
  | some rc => simp [h]

/-- Witness for C2: signing up as "healer" on a trial whose only role is
"tank" fails with `ErrUnknownRole` and leaves the trial unchanged. -/
theorem signupUser_unknownRole_witness :
    signupUser asciiLower (fun t n r => { t with signups := t.signups ++ [⟨n, r⟩] })
        ⟨"raid1", "", "", "", TrialState.Open, [⟨"tank", 2, ""⟩], [⟨"A", "tank"⟩]⟩
        "B" "healer"
      = (⟨"raid1", "", "", "", TrialState.Open, [⟨"tank", 2, ""⟩], [⟨"A", "tank"⟩]⟩,
          false, some CmdError.ErrUnknownRole) :=
  (signupUser_unknownRole asciiLower _ _ "B" "healer").2 (by decide)

/-- C3: on a trial without case-insensitive duplicate roles, signing up for a
role that matches the role count `rc` appends exactly the signup `(user, role)`
at the end, returns no error, and returns `overflow = true` exactly when the
zero-based position of the new signup among the same-role signups (the number
of earlier same-role signups) is at least `rc.count`; that is exactly when
`getTrialRoleSignups` on the updated list appends the new name to the overflow
list rather than to the active list. -/
theorem signupUser_overflow (ToLower : String → String) (trial : Trial)
    (user role : String) (rc : RoleCount)
    (hnodup : trial.roleCounts.Pairwise (fun a b => ToLower a.role ≠ ToLower b.role))
    (hmem : rc ∈ trial.roleCounts) (hrole : ToLower rc.role = ToLower role) :
    (signupUser ToLower Trial.AddSignup trial user role).1
        = { trial with signups := trial.signups ++ [⟨user, role⟩] }
    ∧ (signupUser ToLower Trial.AddSignup trial user role).2.2 = none
    ∧ signupsForRole ToLower role
          (signupUser ToLower Trial.AddSignup trial user role).1.signups false
        = signupsForRole ToLower role trial.signups false ++ [user]
    ∧ ((signupUser ToLower Trial.AddSignup trial user role).2.1 = true
        ↔ rc.count ≤ (signupsForRole ToLower role trial.signups false).length)
    ∧ ((signupUser ToLower Trial.AddSignup trial user role).2.1 = true
        ↔ getTrialRoleSignups ToLower
              (signupUser ToLower Trial.AddSignup trial user role).1.signups rc
            = ((getTrialRoleSignups ToLower trial.signups rc).1,
               (getTrialRoleSignups ToLower trial.signups rc).2 ++ [user]))
    ∧ ((signupUser ToLower Trial.AddSignup trial user role).2.1 = false
        ↔ getTrialRoleSignups ToLower
              (signupUser ToLower Trial.AddSignup trial user role).1.signups rc
            = ((getTrialRoleSignups ToLower trial.signups rc).1 ++ [user],
               (getTrialRoleSignups ToLower trial.signups rc).2)) := by
  have hfind := roleCountByName_eq_some_of_mem ToLower role trial.roleCounts rc
    hnodup hmem hrole
  have hsame : signupsForRole ToLower rc.role trial.signups false
      = signupsForRole ToLower role trial.signups false := by
    simp [signupsForRole_unsorted, hrole]
  have hres : signupUser ToLower Trial.AddSignup trial user role
      = ({ trial with signups := trial.signups ++ [⟨user, role⟩] },
          decide ((signupsForRole ToLower role
            (trial.signups ++ [⟨user, role⟩]) false).length > rc.count), none) := by
    simp [signupUser, hfind, Trial.AddSignup]
  have happ : signupsForRole ToLower role (trial.signups ++ [⟨user, role⟩]) false
      = signupsForRole ToLower role trial.signups false ++ [user] := by
    simp [signupsForRole_unsorted]
  have happ2 : signupsForRole ToLower rc.role (trial.signups ++ [⟨user, role⟩]) false
      = signupsForRole ToLower role trial.signups false ++ [user] := by
    simp [signupsForRole_unsorted, hrole]
  rw [hres]
  refine ⟨rfl, rfl, happ, ?_, ?_, ?_⟩
  · simp only [happ, List.length_append, List.length_singleton, decide_eq_true_eq]
    omega
  · rw [getTrialRoleSignups_eq, getTrialRoleSignups_eq, happ2, hsame]
    simp only [happ, List.length_append, List.length_singleton, decide_eq_true_eq]
    constructor
    · intro h
      have hle : rc.count ≤ (signupsForRole ToLower role trial.signups false).length := by
        omega
      rw [List.take_append_of_le_length hle, List.drop_append_of_le_length hle]
    · intro h
      have h1 := congrArg (fun q => q.1.length) h
      simp only [List.length_take, List.length_append, List.length_singleton] at h1
      omega
  · rw [getTrialRoleSignups_eq, getTrialRoleSignups_eq, happ2, hsame]
    simp only [happ, List.length_append, List.length_singleton, decide_eq_false_iff_not]
    constructor
    · intro h
      have hle : (signupsForRole ToLower role trial.signups false).length ≤ rc.count := by
        omega
      rw [List.take_of_length_le hle, List.drop_of_length_le hle]
      have hle2 : (signupsForRole ToLower role trial.signups false ++ [user]).length
          ≤ rc.count := by
        simp only [List.length_append, List.length_singleton]
        omega
      rw [List.take_of_length_le hle2, List.drop_of_length_le hle2]
    · intro h
      have h1 := congrArg (fun q => q.1.length) h
      simp only [List.length_take, List.length_append, List.length_singleton] at h1
      omega

/-- Witness for C3: with one "tank" slot already taken by A, the signup of B
as "Tank" is appended and lands in overflow. -/
theorem signupUser_overflow_witness :
    [(⟨"tank", 1, ""⟩ : RoleCount)].Pairwise
        (fun a b => asciiLower a.role ≠ asciiLower b.role)
    ∧ asciiLower "tank" = asciiLower "Tank"
    ∧ (signupUser asciiLower Trial.AddSignup
          ⟨"raid1", "", "", "", TrialState.Open, [⟨"tank", 1, ""⟩], [⟨"A", "tank"⟩]⟩
          "B" "Tank").1
        = ⟨"raid1", "", "", "", TrialState.Open, [⟨"tank", 1, ""⟩],
            [⟨"A", "tank"⟩, ⟨"B", "Tank"⟩]⟩
    ∧ (signupUser asciiLower Trial.AddSignup
          ⟨"raid1", "", "", "", TrialState.Open, [⟨"tank", 1, ""⟩], [⟨"A", "tank"⟩]⟩
          "B" "Tank").2.1 = true :=
  ⟨by decide, by decide,
    (signupUser_overflow asciiLower
      ⟨"raid1", "", "", "", TrialState.Open, [⟨"tank", 1, ""⟩], [⟨"A", "tank"⟩]⟩
      "B" "Tank" ⟨"tank", 1, ""⟩ (by decide) (by decide) (by decide)).1,
    (signupUser_overflow asciiLower
      ⟨"raid1", "", "", "", TrialState.Open, [⟨"tank", 1, ""⟩], [⟨"A", "tank"⟩]⟩
      "B" "Tank" ⟨"tank", 1, ""⟩ (by decide) (by decide) (by decide)).2.2.2.1.mpr
      (by decide)⟩

/-- Filtering a truncated list gives a prefix of the truncated filtered list. -/
theorem filter_take_prefix_take_filter {α : Type} (p : α → Bool) (L : List α) (c : Nat) :
    (L.take c).filter p <+: (L.filter p).take c := by
  induction L generalizing c with
  | nil => simp
  | cons x L ih =>
    cases c with
    | zero => simp
    | succ c =>
      by_cases hp : p x = true
      · simp only [List.take_succ_cons, List.filter_cons_of_pos hp]
        exact (List.prefix_cons_inj x).mpr (ih c)
      · simp only [List.take_succ_cons, List.filter_cons_of_neg hp]
        exact (ih c).trans (List.take_prefix_take_left _ (Nat.le_succ c))

/-- Removing the signups of one name commutes with `signupsForRole`. -/
theorem signupsForRole_filter_name (ToLower : String → String) (role u : String)
    (S : List TrialSignup) :
    signupsForRole ToLower role (S.filter (fun s => decide (s.name ≠ u))) false
      = (signupsForRole ToLower role S false).filter (fun n => decide (n ≠ u)) := by
  rw [signupsForRole_unsorted, signupsForRole_unsorted, List.filter_map,
    List.filter_filter, List.filter_filter]
  congr 1
  apply List.filter_congr
  intro x _
  simp [Bool.and_comm]

/-- C4: withdrawal never demotes and promotes from overflow.  With `S'` the
list `S` without the signups named `u`, the active list for `S` with the entries
`u` removed is a prefix of the active list for `S'`, and the active list for
`S'` has length `min rc.count (number of same-role signups in S')`.  On the
example with capacity 2 and signups A, B, C as tank: active A, B and overflow
C; after A withdraws, B and C are active and nobody is in overflow. -/
theorem withdraw_never_demotes (ToLower : String → String) (S : List TrialSignup)
    (rc : RoleCount) (u : String) :
    ((getTrialRoleSignups ToLower S rc).1.filter (fun n => decide (n ≠ u))
        <+: (getTrialRoleSignups ToLower (S.filter (fun s => decide (s.name ≠ u))) rc).1)
    ∧ (getTrialRoleSignups ToLower (S.filter (fun s => decide (s.name ≠ u))) rc).1.length
        = min rc.count
            (signupsForRole ToLower rc.role
              (S.filter (fun s => decide (s.name ≠ u))) false).length
    ∧ getTrialRoleSignups ToLower
          [⟨"A", "tank"⟩, ⟨"B", "tank"⟩, ⟨"C", "tank"⟩] ⟨"tank", 2, ""⟩
        = (["A", "B"], ["C"])
    ∧ getTrialRoleSignups ToLower
          (([⟨"A", "tank"⟩, ⟨"B", "tank"⟩, ⟨"C", "tank"⟩] : List TrialSignup).filter
            (fun s => decide (s.name ≠ "A"))) ⟨"tank", 2, ""⟩
        = (["B", "C"], []) := by
  refine ⟨?_, ?_, ?_, ?_⟩
  · rw [getTrialRoleSignups_eq, getTrialRoleSignups_eq, signupsForRole_filter_name]
    exact filter_take_prefix_take_filter _ _ _
  · rw [getTrialRoleSignups_eq]
    simp only [List.length_take]
  · rw [getTrialRoleSignups_eq]
    simp [signupsForRole_unsorted]
  · rw [getTrialRoleSignups_eq]
    simp [signupsForRole_unsorted]

/-! ## Theorems: command dispatch chain -/

/-- Closed form of the dispatch chain: which handlers are called, and the pair
`(resp, err)` that results. -/
theorem dispatchChain_eq (h : handlers) (msg : Message) (cmdIndicator content : String) :
    dispatchChain h msg cmdIndicator content =
      if adminGate h msg = false then
        ([Event.handle Tier.User (tierMessage h msg cmdIndicator content Tier.User)],
          h.deps.HandleMessage Tier.User (tierMessage h msg cmdIndicator content Tier.User))
      else if fallsThrough Tier.Debug
          (h.deps.HandleMessage Tier.Debug
            (tierMessage h msg cmdIndicator content Tier.Debug)).2 = false then
        ([Event.handle Tier.Debug (tierMessage h msg cmdIndicator content Tier.Debug)],
          (h.deps.HandleMessage Tier.Debug
            (tierMessage h msg cmdIndicator content Tier.Debug)).1,
          (h.deps.HandleMessage Tier.Debug
            (tierMessage h msg cmdIndicator content Tier.Debug)).2.map (tierErr Tier.Debug))
      else if fallsThrough Tier.Config
          (h.deps.HandleMessage Tier.Config
            (tierMessage h msg cmdIndicator content Tier.Config)).2 = false then
        ([Event.handle Tier.Debug (tierMessage h msg cmdIndicator content Tier.Debug),
          Event.handle Tier.Config (tierMessage h msg cmdIndicator content Tier.Config)],
          h.deps.HandleMessage Tier.Config (tierMessage h msg cmdIndicator content Tier.Config))
      else if fallsThrough Tier.Admin
          (h.deps.HandleMessage Tier.Admin
            (tierMessage h msg cmdIndicator content Tier.Admin)).2 = false then
        ([Event.handle Tier.Debug (tierMessage h msg cmdIndicator content Tier.Debug),
          Event.handle Tier.Config (tierMessage h msg cmdIndicator content Tier.Config),
          Event.handle Tier.Admin (tierMessage h msg cmdIndicator content Tier.Admin)],
          h.deps.HandleMessage Tier.Admin (tierMessage h msg cmdIndicator content Tier.Admin))
      else
        ([Event.handle Tier.Debug (tierMessage h msg cmdIndicator content Tier.Debug),
          Event.handle Tier.Config (tierMessage h msg cmdIndicator content Tier.Config),
          Event.handle Tier.Admin (tierMessage h msg cmdIndicator content Tier.Admin),
          Event.handle Tier.User (tierMessage h msg cmdIndicator content Tier.User)],
          h.deps.HandleMessage Tier.User (tierMessage h msg cmdIndicator content Tier.User)) := by
  simp only [dispatchChain, attemptConfigAndAdminHandlers, adminGate, tierMessage]
  cases hg : h.deps.IsAdminAuthorized msg (h.deps.GetSettings msg.guildID).1.AdminRole with
  | false => simp
  | true =>
    simp only [Bool.not_true, Bool.false_eq_true, if_false]
    rcases hD : h.deps.HandleMessage Tier.Debug { msg with contents := content } with ⟨rD, eD⟩
    cases eD with
    | none => simp [fallsThrough]
    | some eD =>
      by_cases hfD : tierErr Tier.Debug eD = CmdError.ErrUnauthorized
          ∨ tierErr Tier.Debug eD = CmdError.ErrUnknownCommand
          ∨ tierErr Tier.Debug eD = CmdError.ErrNotACommand
      · have hfD2 : ¬ ((match eD.Cause with | some cause => cause | none => eD)
              ≠ CmdError.ErrUnauthorized
            ∧ (match eD.Cause with | some cause => cause | none => eD)
              ≠ CmdError.ErrUnknownCommand
            ∧ (match eD.Cause with | some cause => cause | none => eD)
              ≠ CmdError.ErrNotACommand) := by
          simp only [tierErr] at hfD
          tauto
        simp only [hfD2, if_false, fallsThrough, hfD, decide_True, Bool.true_eq_false]
        rcases hC : h.deps.HandleMessage Tier.Config
          { msg with contents := h.deps.CommandIndicator Tier.Config
              ++ TrimPrefix content cmdIndicator } with ⟨rC, eC⟩
        cases eC with
        | none => simp [fallsThrough]
        | some eC =>
          by_cases hfC : eC = CmdError.ErrUnauthorized ∨ eC = CmdError.ErrUnknownCommand
          · have hfC2 : ¬ (eC ≠ CmdError.ErrUnauthorized ∧ eC ≠ CmdError.ErrUnknownCommand) := by
              tauto
            simp only [hfC2, if_false, fallsThrough, hfC, decide_True, Bool.true_eq_false]
            rcases hA : h.deps.HandleMessage Tier.Admin
              { msg with contents := h.deps.CommandIndicator Tier.Admin
                  ++ TrimPrefix content cmdIndicator } with ⟨rA, eA⟩
            cases eA with
            | none => simp [fallsThrough]
            | some eA =>
              by_cases hfA : eA = CmdError.ErrUnauthorized ∨ eA = CmdError.ErrUnknownCommand
              · rcases hfA with hfA | hfA <;> simp [fallsThrough, hfA]
              · have hfA2 : ¬ (some eA = some CmdError.ErrUnauthorized
                    ∨ some eA = some CmdError.ErrUnknownCommand) := by
                  simpa using hfA
                simp [fallsThrough, hfA, hfA2]
          · have hfC2 : eC ≠ CmdError.ErrUnauthorized ∧ eC ≠ CmdError.ErrUnknownCommand := by
              tauto
            have hfC3 : ¬ (some eC = some CmdError.ErrUnauthorized
                ∨ some eC = some CmdError.ErrUnknownCommand) := by
              simpa using hfC
            simp [fallsThrough, hfC, hfC2, hfC3]
      · have hfD2 : (match eD.Cause with | some cause => cause | none => eD)
              ≠ CmdError.ErrUnauthorized
            ∧ (match eD.Cause with | some cause => cause | none => eD)
              ≠ CmdError.ErrUnknownCommand
            ∧ (match eD.Cause with | some cause => cause | none => eD)
              ≠ CmdError.ErrNotACommand := by
          simp only [tierErr] at hfD
          tauto
        have hfD3 : ¬ (some (match eD.Cause with | some cause => cause | none => eD)
              = some CmdError.ErrUnauthorized
            ∨ some (match eD.Cause with | some cause => cause | none => eD)
              = some CmdError.ErrUnknownCommand) := by
          simp only [Option.some.injEq]
          tauto
        simp [fallsThrough, hfD, hfD2, hfD3, tierErr]

/-- Nothing follows the User tier. -/
theorem fallsThrough_user (e : Option CmdError) : fallsThrough Tier.User e = false := by
  cases e <;> rfl

theorem tiersOf_append (a b : List Event) : tiersOf (a ++ b) = tiersOf a ++ tiersOf b := by
  induction a with
  | nil => rfl
  | cons e a ih => cases e <;> simp [tiersOf, ih]

theorem sendsOf_append (a b : List Event) : sendsOf (a ++ b) = sendsOf a ++ sendsOf b := by
  induction a with
  | nil => rfl
  | cons e a ih => cases e <;> simp [sendsOf, ih]

/-- The sending loop calls no handler. -/
theorem tiersOf_sendLoop (h : handlers) (sendTo k : Nat) (rs : List Response) :
    tiersOf (sendLoop h sendTo k rs) = [] := by
  induction rs generalizing k with
  | nil => rfl
  | cons r rs ih =>
    simp only [sendLoop]
    split
    · rfl
    · split
      · rfl
      · simp [tiersOf, ih]

/-- A handler call in a trace shows in `tiersOf`. -/
theorem mem_tiersOf_of_mem (t : Tier) (msg : Message) (tr : List Event)
    (hmem : Event.handle t msg ∈ tr) : t ∈ tiersOf tr := by
  induction tr with
  | nil => simp at hmem
  | cons e tr ih =>
    rcases List.mem_cons.mp hmem with he | he
    · subst he
      simp [tiersOf]
    · cases e with
      | handle t' m' => simp [tiersOf, ih he]
      | send c r => simpa [tiersOf] using ih he

/-- The handler calls of a run are those of the dispatch chain. -/
theorem tiersOf_deliver (h : handlers) (m : InMessage) (gid : Nat) (tr : List Event)
    (resp : Option Response) (err : Option CmdError) :
    tiersOf (deliver h m gid tr resp err).trace = tiersOf tr := by
  unfold deliver
  split
  · rfl
  · split
    · rfl
    · simp [tiersOf_append, tiersOf_sendLoop]

/-- A handler call occurs in a run only if it occurs in the dispatch chain. -/
theorem handle_mem_deliver (h : handlers) (m : InMessage) (gid : Nat) (tr : List Event)
    (resp : Option Response) (err : Option CmdError) (t : Tier) (msg : Message)
    (hmem : Event.handle t msg ∈ (deliver h m gid tr resp err).trace) :
    Event.handle t msg ∈ tr := by
  have hloop : ∀ (sendTo k : Nat) (rs : List Response),
      Event.handle t msg ∉ sendLoop h sendTo k rs := by
    intro sendTo k rs
    induction rs generalizing k with
    | nil => simp [sendLoop]
    | cons r rs ih =>
      simp only [sendLoop]
      split
      · simp
      · split
        · simp
        · simp [ih]
  unfold deliver at hmem
  split at hmem
  · exact hmem
  · split at hmem
    · exact hmem
    · rcases List.mem_append.mp hmem with h1 | h1
      · exact h1
      · exact absurd h1 (hloop _ _ _)

/-- A run of `handleMessage` either returns early without any event, or gets
past the command-prefix check and delivers the outcome of the dispatch chain. -/
theorem handleMessage_eq (h : handlers) (req : Inbound) :
    (handleMessage h req).trace = []
    ∨ ∃ m, reachesDispatch h req m
        ∧ handleMessage h req
          = deliver h m (h.deps.GuildOfChannel m.channelID)
              (dispatchChain h (messageOf h m)
                (guildCommandIndicator h (h.deps.GuildOfChannel m.channelID))
                (TrimSpace m.content)).1
              (dispatchChain h (messageOf h m)
                (guildCommandIndicator h (h.deps.GuildOfChannel m.channelID))
                (TrimSpace m.content)).2.1
              (dispatchChain h (messageOf h m)
                (guildCommandIndicator h (h.deps.GuildOfChannel m.channelID))
                (TrimSpace m.content)).2.2 := by
  unfold handleMessage
  cases hb : h.botSet with
  | false => left; simp
  | true =>
    cases hc : req.ctxDone with
    | true => left; simp
    | false =>
      cases hd : req.decoded with
      | none => left; simp
      | some m =>
        cases ht : m.isDefaultMessage with
        | false => left; simp [ht]
        | true =>
          by_cases he : m.content = ""
          · left; simp [ht, he]
          · by_cases hp : (!HasPrefix m.content
                (guildCommandIndicator h (h.deps.GuildOfChannel m.channelID))
                && !HasPrefix m.content "!config-su-debug") = true
            · left; simp [ht, he, hp]
            · right
              refine ⟨m, ⟨hb, hc, hd, ht, he, ?_⟩, ?_⟩
              · simp only [Bool.and_eq_true, Bool.not_eq_true', not_and,
                  Bool.not_eq_false] at hp
                by_cases h1 : HasPrefix m.content
                    (guildCommandIndicator h (h.deps.GuildOfChannel m.channelID)) = true
                · exact Or.inl h1
                · exact Or.inr (hp (by simpa using h1))
              · simp [ht, he, hp, messageOf]

/-- Counterexample to C5 as stated: the Config handler returns the sentinel
`ErrNotACommand`, yet the Admin handler is not called next; the chain stops
there with that error as its outcome. -/
theorem dispatch_notACommand_at_config_stops :
    ((exHandlers true true exNotACommandAtConfig).deps.HandleMessage Tier.Config
        (tierMessage (exHandlers true true exNotACommandAtConfig)
          ⟨9, 7, 5, 11, ""⟩ "!" "!list" Tier.Config)).2 = some CmdError.ErrNotACommand
    ∧ tiersOf (dispatchChain (exHandlers true true exNotACommandAtConfig)
          ⟨9, 7, 5, 11, ""⟩ "!" "!list").1 = [Tier.Debug, Tier.Config]
    ∧ Tier.Admin ∉ tiersOf (dispatchChain (exHandlers true true exNotACommandAtConfig)
          ⟨9, 7, 5, 11, ""⟩ "!" "!list").1
    ∧ (dispatchChain (exHandlers true true exNotACommandAtConfig)
          ⟨9, 7, 5, 11, ""⟩ "!" "!list").2
        = (some exResponse, some CmdError.ErrNotACommand) := by
  decide

/-- Outside the Debug tier the chain keeps the error as returned. -/
theorem map_tierErr_config (e : Option CmdError) : e.map (tierErr Tier.Config) = e := by
  cases e <;> rfl

theorem map_tierErr_admin (e : Option CmdError) : e.map (tierErr Tier.Admin) = e := by
  cases e <;> rfl

theorem map_tierErr_user (e : Option CmdError) : e.map (tierErr Tier.User) = e := by
  cases e <;> rfl

/-- C5, as the code has it.  In a run of the dispatch chain every handler is
called at most once, in the order Debug, Config, Admin, User, on the message
`tierMessage`.  For a tier `t` whose handler is called: if its result does not
fall through (no error, or an error outside the fall-through set of the tier,
see `fallsThrough`), no later tier is called and the outcome of the chain is
that result (at the Debug tier with the error replaced by its cause when it has
one); if its result falls through, the handler of the next tier is called
next.  The fall-through set is Unauthorized, UnknownCommand, NotACommand at the
Debug tier and Unauthorized, UnknownCommand at the Config and Admin tiers. -/
theorem dispatch_transition (h : handlers) (msg : Message) (cmdIndicator content : String)
    (t : Tier) (ht : t ∈ tiersOf (dispatchChain h msg cmdIndicator content).1) :
    (dispatchChain h msg cmdIndicator content).1
        = (tiersOf (dispatchChain h msg cmdIndicator content).1).map
            (fun t' => Event.handle t' (tierMessage h msg cmdIndicator content t'))
    ∧ (tiersOf (dispatchChain h msg cmdIndicator content).1).Sublist
        [Tier.Debug, Tier.Config, Tier.Admin, Tier.User]
    ∧ (fallsThrough t
          (h.deps.HandleMessage t (tierMessage h msg cmdIndicator content t)).2 = false →
        (∀ t' ∈ tiersOf (dispatchChain h msg cmdIndicator content).1, t'.rank ≤ t.rank)
        ∧ (dispatchChain h msg cmdIndicator content).2
            = ((h.deps.HandleMessage t (tierMessage h msg cmdIndicator content t)).1,
               (h.deps.HandleMessage t (tierMessage h msg cmdIndicator content t)).2.map
                 (tierErr t)))
    ∧ (fallsThrough t
          (h.deps.HandleMessage t (tierMessage h msg cmdIndicator content t)).2 = true →
        ∃ t' pre post, t'.rank = t.rank + 1
          ∧ tiersOf (dispatchChain h msg cmdIndicator content).1 = pre ++ t :: t' :: post) := by
  rw [dispatchChain_eq] at ht ⊢
  by_cases hg : adminGate h msg = false
  · simp only [hg, if_true, tiersOf, List.mem_singleton] at ht ⊢
    subst ht
    refine ⟨rfl, by decide, fun _ => ⟨by simp, by simp [map_tierErr_user]⟩, ?_⟩
    intro hf
    simp [fallsThrough_user] at hf
  · by_cases hD : fallsThrough Tier.Debug
        (h.deps.HandleMessage Tier.Debug
          (tierMessage h msg cmdIndicator content Tier.Debug)).2 = false
    · simp only [hg, hD, if_true, if_false, tiersOf, List.mem_singleton] at ht ⊢
      subst ht
      refine ⟨rfl, by decide, fun _ => ⟨by simp, rfl⟩, ?_⟩
      intro hf
      simp [hD] at hf
    · by_cases hC : fallsThrough Tier.Config
          (h.deps.HandleMessage Tier.Config
            (tierMessage h msg cmdIndicator content Tier.Config)).2 = false
      · simp only [hg, hD, hC, if_true, if_false, tiersOf] at ht ⊢
        refine ⟨rfl, by decide, ?_, ?_⟩
        · intro hf
          rcases List.mem_cons.mp ht with rfl | ht2
          · exact absurd hf hD
          · rw [List.mem_singleton] at ht2
            subst ht2
            exact ⟨by decide, by simp [map_tierErr_config]⟩
        · intro hf
          rcases List.mem_cons.mp ht with rfl | ht2
          · exact ⟨Tier.Config, [], [], rfl, rfl⟩
          · rw [List.mem_singleton] at ht2
            subst ht2
            simp [hC] at hf
      · by_cases hA : fallsThrough Tier.Admin
            (h.deps.HandleMessage Tier.Admin
              (tierMessage h msg cmdIndicator content Tier.Admin)).2 = false
        · simp only [hg, hD, hC, hA, if_true, if_false, tiersOf] at ht ⊢
          refine ⟨rfl, by decide, ?_, ?_⟩
          · intro hf
            rcases List.mem_cons.mp ht with rfl | ht2
            · exact absurd hf hD
            · rcases List.mem_cons.mp ht2 with rfl | ht3
              · exact absurd hf hC
              · rw [List.mem_singleton] at ht3
                subst ht3
                exact ⟨by decide, by simp [map_tierErr_admin]⟩
          · intro hf
            rcases List.mem_cons.mp ht with rfl | ht2
            · exact ⟨Tier.Config, [], [Tier.Admin], rfl, rfl⟩
            · rcases List.mem_cons.mp ht2 with rfl | ht3
              · exact ⟨Tier.Admin, [Tier.Debug], [], rfl, rfl⟩
              · rw [List.mem_singleton] at ht3
                subst ht3
                simp [hA] at hf
        · simp only [hg, hD, hC, hA, if_true, if_false, tiersOf] at ht ⊢
          refine ⟨rfl, by decide, ?_, ?_⟩
          · intro hf
            rcases List.mem_cons.mp ht with rfl | ht2
            · exact absurd hf hD
            · rcases List.mem_cons.mp ht2 with rfl | ht3
              · exact absurd hf hC
              · rcases List.mem_cons.mp ht3 with rfl | ht4
                · exact absurd hf hA
                · rw [List.mem_singleton] at ht4
                  subst ht4
                  exact ⟨by decide, by simp [map_tierErr_user]⟩
          · intro hf
            rcases List.mem_cons.mp ht with rfl | ht2
            · exact ⟨Tier.Config, [], [Tier.Admin, Tier.User], rfl, rfl⟩
            · rcases List.mem_cons.mp ht2 with rfl | ht3
              · exact ⟨Tier.Admin, [Tier.Debug], [Tier.User], rfl, rfl⟩
              · rcases List.mem_cons.mp ht3 with rfl | ht4
                · exact ⟨Tier.User, [Tier.Debug, Tier.Config], [], rfl, rfl⟩
                · rw [List.mem_singleton] at ht4
                  subst ht4
                  simp [fallsThrough_user] at hf

/-- Witness for C5: in the example the Config handler is called, its result
`ErrNotACommand` does not fall through, and it is the outcome of the chain. -/
theorem dispatch_transition_witness :
    Tier.Config ∈ tiersOf (dispatchChain (exHandlers true true exNotACommandAtConfig)
        ⟨9, 7, 5, 11, ""⟩ "!" "!list").1
    ∧ (∀ t' ∈ tiersOf (dispatchChain (exHandlers true true exNotACommandAtConfig)
          ⟨9, 7, 5, 11, ""⟩ "!" "!list").1, t'.rank ≤ Tier.Config.rank)
    ∧ (dispatchChain (exHandlers true true exNotACommandAtConfig)
          ⟨9, 7, 5, 11, ""⟩ "!" "!list").2
        = (some exResponse, some CmdError.ErrNotACommand) :=
  ⟨by decide,
    ((dispatch_transition (exHandlers true true exNotACommandAtConfig)
      ⟨9, 7, 5, 11, ""⟩ "!" "!list" Tier.Config (by decide)).2.2.1 (by decide)).1,
    ((dispatch_transition (exHandlers true true exNotACommandAtConfig)
      ⟨9, 7, 5, 11, ""⟩ "!" "!list" Tier.Config (by decide)).2.2.1 (by decide)).2⟩

/-- The dispatch chain calls the handlers on the messages `tierMessage`, and
sends nothing itself. -/
theorem dispatchChain_trace (h : handlers) (msg : Message) (cmdIndicator content : String) :
    (dispatchChain h msg cmdIndicator content).1
        = (tiersOf (dispatchChain h msg cmdIndicator content).1).map
            (fun t' => Event.handle t' (tierMessage h msg cmdIndicator content t'))
    ∧ sendsOf (dispatchChain h msg cmdIndicator content).1 = [] := by
  rw [dispatchChain_eq]
  split_ifs <;> exact ⟨rfl, rfl⟩

/-- The head of the chain: with the gate closed only the user handler is
called; with the gate open the Debug handler is called first. -/
theorem dispatchChain_head (h : handlers) (msg : Message) (cmdIndicator content : String) :
    (adminGate h msg = false →
      tiersOf (dispatchChain h msg cmdIndicator content).1 = [Tier.User])
    ∧ (adminGate h msg = true →
      ∃ rest, (dispatchChain h msg cmdIndicator content).1
        = Event.handle Tier.Debug (tierMessage h msg cmdIndicator content Tier.Debug) :: rest) := by
  rw [dispatchChain_eq]
  constructor
  · intro hg
    simp [hg, tiersOf]
  · intro hg
    simp only [hg, Bool.true_eq_false, if_false]
    split_ifs <;> exact ⟨_, rfl⟩

/-- A handler whose result does not fall through ends the chain: no later tier
is called and its result is the outcome of the chain. -/
theorem dispatchChain_stop (h : handlers) (msg : Message) (cmdIndicator content : String)
    (t : Tier) (m' : Message)
    (hmem : Event.handle t m' ∈ (dispatchChain h msg cmdIndicator content).1)
    (hnf : fallsThrough t (h.deps.HandleMessage t m').2 = false) :
    m' = tierMessage h msg cmdIndicator content t
    ∧ (∀ t' ∈ tiersOf (dispatchChain h msg cmdIndicator content).1, t'.rank ≤ t.rank)
    ∧ (dispatchChain h msg cmdIndicator content).2
        = ((h.deps.HandleMessage t m').1, (h.deps.HandleMessage t m').2.map (tierErr t)) := by
  have hm : m' = tierMessage h msg cmdIndicator content t := by
    have htr := (dispatchChain_trace h msg cmdIndicator content).1
    rw [htr] at hmem
    rcases List.mem_map.mp hmem with ⟨t', _, he⟩
    injection he with h1 h2
    subst h1
    exact h2.symm
  subst hm
  refine ⟨rfl, ?_⟩
  rw [dispatchChain_eq] at hmem ⊢
  by_cases hg : adminGate h msg = false
  · simp only [hg, if_true] at hmem ⊢
    simp only [List.mem_singleton, Event.handle.injEq] at hmem
    obtain ⟨rfl, _⟩ := hmem
    exact ⟨by simp [tiersOf], by simp [map_tierErr_user]⟩
  · by_cases hD : fallsThrough Tier.Debug
        (h.deps.HandleMessage Tier.Debug
          (tierMessage h msg cmdIndicator content Tier.Debug)).2 = false
    · simp only [hg, hD, if_true, if_false, Bool.true_eq_false, Bool.false_eq_true] at hmem ⊢
      simp only [List.mem_singleton, Event.handle.injEq] at hmem
      obtain ⟨rfl, _⟩ := hmem
      exact ⟨by simp [tiersOf], rfl⟩
    · by_cases hC : fallsThrough Tier.Config
          (h.deps.HandleMessage Tier.Config
            (tierMessage h msg cmdIndicator content Tier.Config)).2 = false
      · simp only [hg, hD, hC, if_true, if_false, Bool.true_eq_false, Bool.false_eq_true] at hmem ⊢
        simp only [List.mem_cons, List.mem_singleton, Event.handle.injEq,
          List.not_mem_nil, or_false] at hmem
        rcases hmem with ⟨rfl, _⟩ | ⟨rfl, _⟩
        · exact absurd hnf hD
        · refine ⟨?_, by simp [map_tierErr_config]⟩
          intro t' ht'
          simp only [tiersOf, List.mem_cons, List.not_mem_nil, or_false] at ht'
          rcases ht' with rfl | rfl <;> decide
      · by_cases hA : fallsThrough Tier.Admin
            (h.deps.HandleMessage Tier.Admin
              (tierMessage h msg cmdIndicator content Tier.Admin)).2 = false
        · simp only [hg, hD, hC, hA, if_true, if_false, Bool.true_eq_false, Bool.false_eq_true] at hmem ⊢
          simp only [List.mem_cons, List.mem_singleton, Event.handle.injEq,
            List.not_mem_nil, or_false] at hmem
          rcases hmem with ⟨rfl, _⟩ | ⟨rfl, _⟩ | ⟨rfl, _⟩
          · exact absurd hnf hD
          · exact absurd hnf hC
          · refine ⟨?_, by simp [map_tierErr_admin]⟩
            intro t' ht'
            simp only [tiersOf, List.mem_cons, List.not_mem_nil, or_false] at ht'
            rcases ht' with rfl | rfl | rfl <;> decide
        · simp only [hg, hD, hC, hA, if_true, if_false, Bool.true_eq_false, Bool.false_eq_true] at hmem ⊢
          simp only [List.mem_cons, List.mem_singleton, Event.handle.injEq,
            List.not_mem_nil, or_false] at hmem
          rcases hmem with ⟨rfl, _⟩ | ⟨rfl, _⟩ | ⟨rfl, _⟩ | ⟨rfl, _⟩
          · exact absurd hnf hD
          · exact absurd hnf hC
          · exact absurd hnf hA
          · refine ⟨?_, by simp [map_tierErr_user]⟩
            intro t' ht'
            simp only [tiersOf, List.mem_cons, List.not_mem_nil, or_false] at ht'
            rcases ht' with rfl | rfl | rfl | rfl <;> decide

/-- The result `ErrNoResponse` falls through at no tier. -/
theorem fallsThrough_noResponse (t : Tier) :
    fallsThrough t (some CmdError.ErrNoResponse) = false := by
  cases t <;> decide

/-- C7: `ErrNoResponse` short-circuits.  If in a run of `handleMessage` the
handler of some tier is called and returns `ErrNoResponse`, then no handler of
a later tier is called and `SendMessage` is never called; the run returns. -/
theorem noResponse_short_circuits (h : handlers) (req : Inbound) (t : Tier) (msg : Message)
    (hcall : Event.handle t msg ∈ (handleMessage h req).trace)
    (hres : (h.deps.HandleMessage t msg).2 = some CmdError.ErrNoResponse) :
    (∀ t' ∈ tiersOf (handleMessage h req).trace, t'.rank ≤ t.rank)
    ∧ sendsOf (handleMessage h req).trace = []
    ∧ (handleMessage h req).ret.isSome = true := by
  rcases handleMessage_eq h req with h0 | ⟨m, _, heq⟩
  · rw [h0] at hcall
    simp at hcall
  · rw [heq] at hcall ⊢
    have hmem := handle_mem_deliver _ _ _ _ _ _ _ _ hcall
    have hnf : fallsThrough t (h.deps.HandleMessage t msg).2 = false := by
      rw [hres]
      exact fallsThrough_noResponse t
    obtain ⟨_, hrank, hout⟩ := dispatchChain_stop _ _ _ _ _ _ hmem hnf
    have herr : (dispatchChain h (messageOf h m)
        (guildCommandIndicator h (h.deps.GuildOfChannel m.channelID))
        (TrimSpace m.content)).2.2 = some CmdError.ErrNoResponse := by
      rw [hout, hres]
      cases t <;> rfl
    refine ⟨?_, ?_, ?_⟩
    · rw [tiersOf_deliver]
      exact hrank
    · simp only [deliver, herr, true_or, if_true]
      exact (dispatchChain_trace _ _ _ _).2
    · simp [deliver, herr]

/-- Witness for C7: a non-admin caller withdraws outside the signup channel;
the user handler answers `ErrNoResponse` and nothing is sent. -/
theorem noResponse_short_circuits_witness :
    Event.handle Tier.User ⟨9, 7, 5, 11, "!wd Raid1"⟩
        ∈ (handleMessage (exHandlers false false exAllNoResponse) (exInbound "!wd Raid1")).trace
    ∧ sendsOf (handleMessage (exHandlers false false exAllNoResponse)
        (exInbound "!wd Raid1")).trace = [] :=
  ⟨by decide,
    (noResponse_short_circuits (exHandlers false false exAllNoResponse)
      (exInbound "!wd Raid1") Tier.User ⟨9, 7, 5, 11, "!wd Raid1"⟩
      (by decide) (by decide)).2.1⟩

/-- A request that gets past the command-prefix check delivers the outcome of
the dispatch chain. -/
theorem handleMessage_of_reaches (h : handlers) (req : Inbound) (m : InMessage)
    (hr : reachesDispatch h req m) :
    handleMessage h req
      = deliver h m (h.deps.GuildOfChannel m.channelID)
          (dispatchChain h (messageOf h m)
            (guildCommandIndicator h (h.deps.GuildOfChannel m.channelID))
            (TrimSpace m.content)).1
          (dispatchChain h (messageOf h m)
            (guildCommandIndicator h (h.deps.GuildOfChannel m.channelID))
            (TrimSpace m.content)).2.1
          (dispatchChain h (messageOf h m)
            (guildCommandIndicator h (h.deps.GuildOfChannel m.channelID))
            (TrimSpace m.content)).2.2 := by
  obtain ⟨hb, hc, hd, ht, he, hp⟩ := hr
  have hp2 : (!HasPrefix m.content
      (guildCommandIndicator h (h.deps.GuildOfChannel m.channelID))
      && !HasPrefix m.content "!config-su-debug") = false := by
    rcases hp with hp | hp <;> simp [hp]
  unfold handleMessage
  simp [hb, hc, hd, ht, he, hp2, messageOf]

/-- The trace of a run starts with the handler calls of the dispatch chain. -/
theorem deliver_trace (h : handlers) (m : InMessage) (gid : Nat) (tr : List Event)
    (resp : Option Response) (err : Option CmdError) :
    ∃ rest, (deliver h m gid tr resp err).trace = tr ++ rest := by
  unfold deliver
  split
  · exact ⟨[], by simp⟩
  · split
    · exact ⟨[], by simp⟩
    · exact ⟨_, rfl⟩

/-- Counterexample to C6 as stated: every tier, the User tier last, answers
`ErrUnauthorized`; the error is included in the response of the user handler
and that response is sent to the channel of the command. -/
theorem unauthorized_at_user_is_sent :
    tiersOf (handleMessage (exHandlers true true exAllUnauthorized)
        (exInbound "!su Raid1 tank")).trace
      = [Tier.Debug, Tier.Config, Tier.Admin, Tier.User]
    ∧ ((exHandlers true true exAllUnauthorized).deps.HandleMessage Tier.User
        ⟨9, 7, 5, 11, "!su Raid1 tank"⟩).2 = some CmdError.ErrUnauthorized
    ∧ sendsOf (handleMessage (exHandlers true true exAllUnauthorized)
        (exInbound "!su Raid1 tank")).trace
      = [(5, ⟨"@user", "done", 0, [CmdError.ErrUnauthorized], 2⟩)] := by
  decide

/-- C6, as the code has it.  When the user handler is called and answers
`ErrUnknownCommand`, `handleMessage` sends nothing and returns.  When it
answers `ErrUnauthorized` together with a response, the error is included in
that response, which gets the error colour and is sent. -/
theorem unknownCommand_at_user_is_silent (h : handlers) (req : Inbound) (msg : Message)
    (hcall : Event.handle Tier.User msg ∈ (handleMessage h req).trace) :
    ((h.deps.HandleMessage Tier.User msg).2 = some CmdError.ErrUnknownCommand →
      sendsOf (handleMessage h req).trace = []
      ∧ (handleMessage h req).ret.isSome = true)
    ∧ (∀ resp, h.deps.HandleMessage Tier.User msg
          = (some resp, some CmdError.ErrUnauthorized) →
        ∃ m, req.decoded = some m
          ∧ sendsOf (handleMessage h req).trace
            = sendsOf (sendLoop h (if resp.channel = 0 then m.channelID else resp.channel) 0
                (h.deps.Split ((resp.IncludeError CmdError.ErrUnauthorized).SetColor
                  h.errorColor)))) := by
  rcases handleMessage_eq h req with h0 | ⟨m, hr, heq⟩
  · rw [h0] at hcall
    simp at hcall
  · rw [heq] at hcall ⊢
    have hmem := handle_mem_deliver _ _ _ _ _ _ _ _ hcall
    obtain ⟨_, _, hout⟩ := dispatchChain_stop _ _ _ _ _ _ hmem (fallsThrough_user _)
    rw [map_tierErr_user] at hout
    have hsends := (dispatchChain_trace h (messageOf h m)
      (guildCommandIndicator h (h.deps.GuildOfChannel m.channelID))
      (TrimSpace m.content)).2
    constructor
    · intro hres
      have herr : (dispatchChain h (messageOf h m)
          (guildCommandIndicator h (h.deps.GuildOfChannel m.channelID))
          (TrimSpace m.content)).2.2 = some CmdError.ErrUnknownCommand := by
        rw [hout, hres]
      constructor
      · simp only [deliver, herr, or_true, if_true]
        exact hsends
      · simp [deliver, herr]
    · intro resp hres
      refine ⟨m, hr.2.2.1, ?_⟩
      rw [hout, hres]
      have hhas : (resp.IncludeError CmdError.ErrUnauthorized).HasErrors = true := by
        simp [Response.IncludeError, Response.HasErrors]
      simp only [deliver, hhas, if_true]
      simp [sendsOf_append, hsends, Response.SetColor, Response.IncludeError]

/-- Witness for C6: an unknown command of a non-admin caller; the user handler
is the only one called, answers `ErrUnknownCommand`, and nothing is sent. -/
theorem unknownCommand_at_user_is_silent_witness :
    Event.handle Tier.User ⟨9, 7, 5, 11, "!dance"⟩
        ∈ (handleMessage (exHandlers false false exAllUnknown) (exInbound "!dance")).trace
    ∧ sendsOf (handleMessage (exHandlers false false exAllUnknown)
        (exInbound "!dance")).trace = [] :=
  ⟨by decide,
    ((unknownCommand_at_user_is_silent (exHandlers false false exAllUnknown)
      (exInbound "!dance") ⟨9, 7, 5, 11, "!dance"⟩ (by decide)).1 (by decide)).1⟩

/-- Counterexample to C8 as stated: the caller holds the admin role but writes
outside the admin channel "officers", so the check worded in the
specification fails; the Debug, Config and Admin handlers are called all the
same. -/
theorem admin_tiers_called_outside_admin_channel :
    specAdminCheck (exHandlers true false exAdminSucceeds)
        (messageOf (exHandlers true false exAdminSucceeds) ⟨true, 5, 9, 11, "!delete Raid1"⟩)
      = false
    ∧ tiersOf (handleMessage (exHandlers true false exAdminSucceeds)
        (exInbound "!delete Raid1")).trace
      = [Tier.Debug, Tier.Config, Tier.Admin] := by
  decide

/-- C8, as the code has it.  The handler of a tier other than the User tier
(Debug, Config, Admin) is called in a run of `handleMessage` only if the
request got past the command-prefix check and `IsAdminAuthorized` accepts the
message for the admin role of the guild settings. -/
theorem privileged_tiers_need_gate (h : handlers) (req : Inbound) (t : Tier)
    (hne : t ≠ Tier.User) (ht : t ∈ tiersOf (handleMessage h req).trace) :
    ∃ m, reachesDispatch h req m
      ∧ h.deps.IsAdminAuthorized (messageOf h m)
          (h.deps.GetSettings (messageOf h m).guildID).1.AdminRole = true := by
  rcases handleMessage_eq h req with h0 | ⟨m, hr, heq⟩
  · rw [h0] at ht
    simp [tiersOf] at ht
  · refine ⟨m, hr, ?_⟩
    rw [heq, tiersOf_deliver] at ht
    by_contra hg
    have hg2 : adminGate h (messageOf h m) = false := by
      simpa [adminGate] using hg
    rw [(dispatchChain_head h (messageOf h m) _ _).1 hg2, List.mem_singleton] at ht
    exact hne ht

/-- Witness for C8: the Admin handler is called in the example, and there the
gate is open. -/
theorem privileged_tiers_need_gate_witness :
    Tier.Admin ∈ tiersOf (handleMessage (exHandlers true false exAdminSucceeds)
        (exInbound "!delete Raid1")).trace
    ∧ ∃ m, reachesDispatch (exHandlers true false exAdminSucceeds)
          (exInbound "!delete Raid1") m
        ∧ (exHandlers true false exAdminSucceeds).deps.IsAdminAuthorized
            (messageOf (exHandlers true false exAdminSucceeds) m)
            ((exHandlers true false exAdminSucceeds).deps.GetSettings
              (messageOf (exHandlers true false exAdminSucceeds) m).guildID).1.AdminRole
          = true :=
  ⟨by decide,
    privileged_tiers_need_gate (exHandlers true false exAdminSucceeds)
      (exInbound "!delete Raid1") Tier.Admin (by decide) (by decide)⟩

/-- Counterexample to C9 as stated: a message that starts with the hard-coded
debug prefix gets past the command-prefix check, but the caller does not pass
`IsAdminAuthorized`; the Debug handler is not called, only the user handler. -/
theorem debug_not_called_for_non_admin :
    reachesDispatch (exHandlers false false exAllSucceed)
        (exInbound "!config-su-debug dump") ⟨true, 5, 9, 11, "!config-su-debug dump"⟩
    ∧ tiersOf (handleMessage (exHandlers false false exAllSucceed)
        (exInbound "!config-su-debug dump")).trace = [Tier.User]
    ∧ Tier.Debug ∉ tiersOf (handleMessage (exHandlers false false exAllSucceed)
        (exInbound "!config-su-debug dump")).trace := by
  refine ⟨?_, by decide, by decide⟩
  unfold reachesDispatch
  decide

/-- C9, as the code has it.  For a request that gets past the command-prefix
check: when `IsAdminAuthorized` accepts the caller, the first event of the run
is the call of the Debug handler, on the trimmed content; when it does not,
the Debug handler is not called and the user handler is the only one called. -/
theorem debug_first_when_authorized (h : handlers) (req : Inbound) (m : InMessage)
    (hr : reachesDispatch h req m) :
    (adminGate h (messageOf h m) = true →
      ∃ rest, (handleMessage h req).trace
        = Event.handle Tier.Debug { messageOf h m with contents := TrimSpace m.content } :: rest)
    ∧ (adminGate h (messageOf h m) = false →
      tiersOf (handleMessage h req).trace = [Tier.User]) := by
  rw [handleMessage_of_reaches h req m hr]
  constructor
  · intro hg
    obtain ⟨rest, hrest⟩ := (dispatchChain_head h (messageOf h m)
      (guildCommandIndicator h (h.deps.GuildOfChannel m.channelID))
      (TrimSpace m.content)).2 hg
    obtain ⟨rest2, hrest2⟩ := deliver_trace h m (h.deps.GuildOfChannel m.channelID)
      (dispatchChain h (messageOf h m)
        (guildCommandIndicator h (h.deps.GuildOfChannel m.channelID))
        (TrimSpace m.content)).1
      (dispatchChain h (messageOf h m)
        (guildCommandIndicator h (h.deps.GuildOfChannel m.channelID))
        (TrimSpace m.content)).2.1
      (dispatchChain h (messageOf h m)
        (guildCommandIndicator h (h.deps.GuildOfChannel m.channelID))
        (TrimSpace m.content)).2.2
    refine ⟨rest ++ rest2, ?_⟩
    rw [hrest2, hrest]
    rfl
  · intro hg
    rw [tiersOf_deliver]
    exact (dispatchChain_head h (messageOf h m) _ _).1 hg

/-- Witness for C9: an admin sends a debug command; the Debug handler is called
first. -/
theorem debug_first_when_authorized_witness :
    reachesDispatch (exHandlers true true exAllSucceed)
        (exInbound "!config-su-debug dump") ⟨true, 5, 9, 11, "!config-su-debug dump"⟩
    ∧ ∃ rest, (handleMessage (exHandlers true true exAllSucceed)
          (exInbound "!config-su-debug dump")).trace
        = Event.handle Tier.Debug ⟨9, 7, 5, 11, "!config-su-debug dump"⟩ :: rest :=
  ⟨by unfold reachesDispatch; decide,
    (debug_first_when_authorized (exHandlers true true exAllSucceed)
      (exInbound "!config-su-debug dump") ⟨true, 5, 9, 11, "!config-su-debug dump"⟩
      (by unfold reachesDispatch; decide)).1 (by decide)⟩

/-! ## Theorems: trial storage -/

/-- Looking a key up in a list that starts with another key. -/
theorem lookup_cons_of_ne (b : Bucket) (k a : String) (v : Bytes) (hne : k ≠ a) :
    List.lookup k ((a, v) :: b) = List.lookup k b := by
  have h3 : (k == a) = false := by simpa using hne
  rw [List.lookup_cons, h3]

/-- Looking a key up after removing a key. -/
theorem lookup_filter_ne (b : Bucket) (k k' : String) :
    (b.filter (fun kv => decide (kv.1 ≠ k'))).lookup k
      = if k = k' then none else b.lookup k := by
  induction b with
  | nil => simp
  | cons kv b ih =>
    obtain ⟨a, v⟩ := kv
    rw [List.filter_cons]
    by_cases h1 : a = k'
    · have hd : decide ((a, v).1 ≠ k') = false := by simp [h1]
      rw [hd]
      simp only [Bool.false_eq_true, if_false]
      rw [ih]
      by_cases h2 : k = k'
      · simp only [h2, if_true]
      · simp only [h2, if_false]
        rw [lookup_cons_of_ne b k a v (by rw [h1]; exact h2)]
    · have hd : decide ((a, v).1 ≠ k') = true := by simp [h1]
      rw [hd]
      simp only [if_true]
      by_cases h3 : k = a
      · subst h3
        rw [List.lookup_cons_self, List.lookup_cons_self]
        simp only [h1, if_false]
      · rw [lookup_cons_of_ne _ k a v h3, lookup_cons_of_ne _ k a v h3, ih]

/-- When the record of the name is stored under the lower-cased key only (or
the name is its own lower-casing), a successful `DeleteTrial` removes it: the
following `GetTrial` in the same transaction returns `ErrTrialNotExist`. -/
theorem deleteTrial_then_getTrial (ToLower : String → String)
    (Unmarshal : Bytes → Option Trial × Option CmdError)
    (b : boltTrialAPITx) (name : String)
    (hkey : name = ToLower name ∨ b.bucket.Get name = none)
    (hok : (b.DeleteTrial ToLower Unmarshal name).2 = none) :
    (b.DeleteTrial ToLower Unmarshal name).1.GetTrial ToLower Unmarshal name
      = (none, some CmdError.ErrTrialNotExist) := by
  unfold boltTrialAPITx.DeleteTrial at hok ⊢
  rcases hg : b.GetTrial ToLower Unmarshal name with ⟨t, e⟩
  rw [hg] at hok
  cases e with
  | some e => simp at hok
  | none =>
    simp only [boltTrialAPITx.bucketDelete] at hok ⊢
    cases hw : b.writable with
    | false => simp [hw] at hok
    | true =>
      simp only [hw, Bool.not_true, Bool.false_eq_true, if_false,
        boltTrialAPITx.GetTrial, Bucket.Get, lookup_filter_ne, if_true]
      have hraw : (if name = ToLower name then (none : Option Bytes)
          else List.lookup name b.bucket) = none := by
        rcases hkey with hkey | hkey
        · rw [if_pos hkey]
        · rw [Bucket.Get] at hkey
          rw [hkey]
          split <;> rfl
      rw [hraw]

/-- C10 at its failing input: the bucket holds a record under the key "Boss"
as given (a key that `GetTrial` reads through its second lookup) and none
under "boss".  `DeleteTrial "Boss"` finds the record, deletes the key "boss",
returns no error and leaves the bucket as it was; the following `GetTrial
"Boss"` returns the record again rather than `ErrTrialNotExist`. -/
theorem deleteTrial_keeps_record_under_given_name :
    boltTrialAPITx.DeleteTrial asciiLower exUnmarshal ⟨true, [("Boss", [10, 4])]⟩ "Boss"
      = (⟨true, [("Boss", [10, 4])]⟩, none)
    ∧ (boltTrialAPITx.DeleteTrial asciiLower exUnmarshal
          ⟨true, [("Boss", [10, 4])]⟩ "Boss").1.GetTrial asciiLower exUnmarshal "Boss"
      = (some ⟨"Boss", "", "", "", TrialState.Open, [], []⟩, none)
    ∧ (boltTrialAPITx.DeleteTrial asciiLower exUnmarshal
          ⟨true, [("Boss", [10, 4])]⟩ "Boss").1.GetTrial asciiLower exUnmarshal "Boss"
      ≠ (none, some CmdError.ErrTrialNotExist) := by
  decide

/-- C11: when the bucket has no record under the lower-cased name nor under
the name as given, `DeleteTrial` returns `ErrTrialNotExist` and the transaction,
in particular the content of the bucket, is unchanged. -/
theorem deleteTrial_absent (ToLower : String → String)
    (Unmarshal : Bytes → Option Trial × Option CmdError)
    (b : boltTrialAPITx) (name : String)
    (hlower : b.bucket.Get (ToLower name) = none) (hgiven : b.bucket.Get name = none) :
    b.DeleteTrial ToLower Unmarshal name = (b, some CmdError.ErrTrialNotExist) := by
  simp [boltTrialAPITx.DeleteTrial, boltTrialAPITx.GetTrial, hlower, hgiven]

/-- Witness for C11: deleting "Raid2" from a bucket that holds only "boss". -/
theorem deleteTrial_absent_witness :
    boltTrialAPITx.DeleteTrial asciiLower exUnmarshal ⟨true, [("boss", [10, 4])]⟩ "Raid2"
      = (⟨true, [("boss", [10, 4])]⟩, some CmdError.ErrTrialNotExist) :=
  deleteTrial_absent asciiLower exUnmarshal ⟨true, [("boss", [10, 4])]⟩ "Raid2"
    (by decide) (by decide)

/-- C13: `GetTrial` returns `ErrTrialNotExist` exactly when the bucket has no
record for the name, neither under the lower-cased name nor under the name as
given.  When the record that it finds does not decode, it returns no trial and
the decoding error wrapped as "trial record is corrupt", which is not
`ErrTrialNotExist`. -/
theorem getTrial_notExist_iff (ToLower : String → String)
    (Unmarshal : Bytes → Option Trial × Option CmdError)
    (b : boltTrialAPITx) (name : String) :
    ((b.GetTrial ToLower Unmarshal name).2 = some CmdError.ErrTrialNotExist
        ↔ b.bucket.Get (ToLower name) = none ∧ b.bucket.Get name = none)
    ∧ (∀ v e,
        (b.bucket.Get (ToLower name) = some v
          ∨ (b.bucket.Get (ToLower name) = none ∧ b.bucket.Get name = some v)) →
        (Unmarshal v).2 = some e →
        b.GetTrial ToLower Unmarshal name
            = (none, some (CmdError.wrapped "trial record is corrupt" e))
          ∧ (b.GetTrial ToLower Unmarshal name).2 ≠ some CmdError.ErrTrialNotExist) := by
  constructor
  · unfold boltTrialAPITx.GetTrial
    cases h1 : b.bucket.Get (ToLower name) with
    | none =>
      cases h2 : b.bucket.Get name with
      | none => simp [h1, h2]
      | some v =>
        rcases hu : Unmarshal v with ⟨t, e⟩
        cases e <;> simp [h1, h2, hu]
    | some v =>
      rcases hu : Unmarshal v with ⟨t, e⟩
      cases e <;> simp [h1, hu]
  · intro v e hv he
    have hfound : (match b.bucket.Get (ToLower name) with
        | some v => some v
        | none => b.bucket.Get name) = some v := by
      rcases hv with hv | ⟨hv1, hv2⟩
      · rw [hv]
      · rw [hv1, hv2]
    rcases hu : Unmarshal v with ⟨t, e'⟩
    rw [hu] at he
    simp only at he
    subst he
    have hres : b.GetTrial ToLower Unmarshal name
        = (none, some (CmdError.wrapped "trial record is corrupt" e)) := by
      unfold boltTrialAPITx.GetTrial
      simp only [hfound, hu]
    rw [hres]
    exact ⟨rfl, by simp⟩

/-- Witness for C13: the record of "Boss" is stored under "boss" with bytes
that do not decode; `GetTrial` reports the corrupt record. -/
theorem getTrial_notExist_iff_witness :
    boltTrialAPITx.GetTrial asciiLower exUnmarshal ⟨true, [("boss", [])]⟩ "Boss"
      = (none, some (CmdError.wrapped "trial record is corrupt"
          (CmdError.other "unexpected EOF"))) :=
  ((getTrial_notExist_iff asciiLower exUnmarshal ⟨true, [("boss", [])]⟩ "Boss").2
    [] (CmdError.other "unexpected EOF") (Or.inl (by decide)) (by decide)).1

/-- The loop of `GetTrials`, started from any accumulator. -/
theorem getTrials_foldl (Unmarshal : Bytes → Option Trial × Option CmdError)
    (bucket : Bucket) (acc : List Trial) :
    bucket.foldl (getTrialsStep Unmarshal) acc
      = acc ++ bucket.filterMap (decodeEntry Unmarshal) := by
  induction bucket generalizing acc with
  | nil => simp
  | cons kv rest ih =>
    rw [List.foldl_cons, ih]
    unfold getTrialsStep
    rcases hu : Unmarshal kv.2 with ⟨t, e⟩
    cases t <;> cases e <;> simp [List.filterMap_cons, decodeEntry, hu]

/-- C18: `GetTrials` returns, in the key order of the bucket, the trial of
every entry whose bytes decode, and nothing for the other entries: as many
trials as there are decodable entries, and an entry that does not decode can be
taken out of the bucket without changing the result. -/
theorem getTrials_skips_corrupt (Unmarshal : Bytes → Option Trial × Option CmdError)
    (b : boltTrialAPITx) :
    b.GetTrials Unmarshal = b.bucket.filterMap (decodeEntry Unmarshal)
    ∧ (b.GetTrials Unmarshal).length
        = (b.bucket.filter (fun kv => (decodeEntry Unmarshal kv).isSome)).length
    ∧ (∀ (pre post : Bucket) (kv : String × Bytes),
        b.bucket = pre ++ kv :: post → decodeEntry Unmarshal kv = none →
        b.GetTrials Unmarshal
          = boltTrialAPITx.GetTrials Unmarshal { b with bucket := pre ++ post }) := by
  have heq : ∀ b' : boltTrialAPITx,
      b'.GetTrials Unmarshal = b'.bucket.filterMap (decodeEntry Unmarshal) := by
    intro b'
    unfold boltTrialAPITx.GetTrials
    rw [getTrials_foldl]
    simp
  refine ⟨heq b, ?_, ?_⟩
  · rw [heq b]
    generalize b.bucket = l
    induction l with
    | nil => simp
    | cons kv rest ih =>
      cases hd : decodeEntry Unmarshal kv with
      | none => simp [List.filterMap_cons, List.filter_cons, hd, ih]
      | some t => simp [List.filterMap_cons, List.filter_cons, hd, ih]
  · intro pre post kv hb hkv
    rw [heq b, heq, hb]
    simp [List.filterMap_append, List.filterMap_cons, hkv]

/-- Witness for C18: of three entries the second does not decode; the result
has the two other trials, in key order, as if the second entry were not there. -/
theorem getTrials_skips_corrupt_witness :
    boltTrialAPITx.GetTrials exUnmarshalName
        ⟨false, [("boss", [98, 111, 115, 115]), ("raid1", []), ("raid2", [114, 50])]⟩
      = [freshTrial "boss", freshTrial "r2"]
    ∧ boltTrialAPITx.GetTrials exUnmarshalName
        ⟨false, [("boss", [98, 111, 115, 115]), ("raid1", []), ("raid2", [114, 50])]⟩
      = boltTrialAPITx.GetTrials exUnmarshalName
        ⟨false, [("boss", [98, 111, 115, 115]), ("raid2", [114, 50])]⟩ :=
  ⟨by decide,
    (getTrials_skips_corrupt exUnmarshalName
      ⟨false, [("boss", [98, 111, 115, 115]), ("raid1", []), ("raid2", [114, 50])]⟩).2.2
      [("boss", [98, 111, 115, 115])] [("raid2", [114, 50])] ("raid1", []) rfl
      (by decide)⟩

/-- A key that is not found is the key of no entry. -/
theorem ne_of_lookup_eq_none (b : Bucket) (k : String) (h : b.lookup k = none) :
    ∀ kv ∈ b, kv.1 ≠ k := by
  induction b with
  | nil => simp
  | cons e rest ih =>
    obtain ⟨a, v⟩ := e
    by_cases hk : k = a
    · subst hk
      rw [List.lookup_cons_self] at h
      exact absurd h (by simp)
    · rw [lookup_cons_of_ne rest k a v hk] at h
      intro kv hkv
      rcases List.mem_cons.mp hkv with rfl | hmem
      · exact fun heq => hk heq.symm
      · exact ih h kv hmem

/-- After `insert` the key is found with the new value. -/
theorem lookup_insert_self (b : Bucket) (k : String) (v : Bytes) :
    (b.insert k v).lookup k = some v := by
  induction b with
  | nil => simp [Bucket.insert]
  | cons e rest ih =>
    obtain ⟨a, w⟩ := e
    unfold Bucket.insert
    by_cases h1 : k = a
    · simp [h1]
    · by_cases h2 : k < a
      · simp [h1, h2]
      · simp only [h1, h2, if_false]
        rw [lookup_cons_of_ne _ k a w h1]
        exact ih

/-- The entries of the other keys are not touched by `insert`. -/
theorem filter_ne_insert (b : Bucket) (k : String) (v : Bytes) :
    (b.insert k v).filter (fun kv => decide (kv.1 ≠ k))
      = b.filter (fun kv => decide (kv.1 ≠ k)) := by
  induction b with
  | nil => simp [Bucket.insert]
  | cons e rest ih =>
    obtain ⟨a, w⟩ := e
    unfold Bucket.insert
    by_cases h1 : k = a
    · subst h1
      simp [List.filter_cons]
    · by_cases h2 : k < a
      · simp only [h1, h2, if_false, if_true]
        rw [List.filter_cons]
        simp
      · simp only [h1, h2, if_false]
        rw [List.filter_cons, List.filter_cons, ih]

/-- In a bucket without the key, `insert` makes exactly one entry of the key. -/
theorem filter_eq_insert (b : Bucket) (k : String) (v : Bytes)
    (h : ∀ kv ∈ b, kv.1 ≠ k) :
    (b.insert k v).filter (fun kv => decide (kv.1 = k)) = [(k, v)] := by
  induction b with
  | nil => simp [Bucket.insert]
  | cons e rest ih =>
    obtain ⟨a, w⟩ := e
    have ha : a ≠ k := h (a, w) (List.mem_cons_self _ _)
    have hrest : ∀ kv ∈ rest, kv.1 ≠ k := fun kv hkv => h kv (List.mem_cons_of_mem _ hkv)
    have hnone : rest.filter (fun kv => decide (kv.1 = k)) = [] := by
      rw [List.filter_eq_nil_iff]
      intro kv hkv
      simpa using hrest kv hkv
    have h1 : ¬ k = a := fun heq => ha heq.symm
    unfold Bucket.insert
    by_cases h2 : k < a
    · simp only [h1, h2, if_false, if_true]
      rw [List.filter_cons, List.filter_cons]
      simp [ha, hnone]
    · simp only [h1, h2, if_false]
      rw [List.filter_cons]
      simp [ha, ih hrest]

/-- Storing twice under one key keeps the second value only. -/
theorem insert_insert (b : Bucket) (k : String) (v w : Bytes) :
    (b.insert k v).insert k w = b.insert k w := by
  induction b with
  | nil => simp [Bucket.insert]
  | cons e rest ih =>
    obtain ⟨a, x⟩ := e
    by_cases h1 : k = a
    · subst h1
      simp [Bucket.insert]
    · by_cases h2 : k < a
      · simp [Bucket.insert, h1, h2]
      · simp [Bucket.insert, h1, h2, ih]

/-- What a successful `SaveTrial` does: the trial serializes, and the bytes are
stored under the lower-cased name. -/
theorem saveTrial_ok (ToLower : String → String) (Serialize : Trial → Bytes × Option CmdError)
    (b : boltTrialAPITx) (t : Trial)
    (hsave : (b.SaveTrial ToLower Serialize t).2 = none) :
    Serialize t = ((Serialize t).1, none)
    ∧ b.SaveTrial ToLower Serialize t
        = ({ b with bucket := b.bucket.insert (ToLower t.name) (Serialize t).1 }, none)
    ∧ b.bucketPut (ToLower t.name) (Serialize t).1
        = ({ b with bucket := b.bucket.insert (ToLower t.name) (Serialize t).1 }, none) := by
  unfold boltTrialAPITx.SaveTrial at hsave ⊢
  rcases hs : Serialize t with ⟨serial, e⟩
  rw [hs] at hsave
  cases e with
  | some e => simp at hsave
  | none =>
    simp only at hsave ⊢
    unfold boltTrialAPITx.bucketPut at hsave ⊢
    split_ifs at hsave ⊢
    simp_all

/-- Lowering an ASCII letter twice is lowering it once. -/
theorem char_toLower_idem (c : Char) : c.toLower.toLower = c.toLower := by
  by_cases h : c.toNat ≥ 65 ∧ c.toNat ≤ 90
  · have h1 : c.toLower = Char.ofNat (c.toNat + 32) := by
      simp only [Char.toLower, h, and_self, if_true]
    rw [h1]
    obtain ⟨lo, hi⟩ := h
    generalize c.toNat = n at lo hi
    interval_cases n <;> rfl
  · have h1 : c.toLower = c := by
      simp only [Char.toLower, h, if_false]
    rw [h1, h1]

/-- The lowering function of the examples is idempotent. -/
theorem asciiLower_idem (s : String) : asciiLower (asciiLower s) = asciiLower s := by
  simp [asciiLower, Function.comp_def, char_toLower_idem]

/-- C12: idempotent, case-collapsing create.  Let the lowering function be
idempotent, let `n1` and `n2` have the same lower-casing, and let the bucket
hold no record under that key.  Then `AddTrial n1` returns the fresh trial
named `ToLower n1` (and, being a read, writes nothing).  When that trial `t`
(its name kept) has been saved and its bytes decode back to it, `AddTrial n2`
and `GetTrial n2` both return the saved trial; saving that result again stores
under the same key and leaves the bucket as it is; the bucket holds exactly
one entry under the key `ToLower n1`, and its other entries are those from
before. -/
theorem addTrial_idempotent (ToLower : String → String)
    (Unmarshal : Bytes → Option Trial × Option CmdError)
    (Serialize : Trial → Bytes × Option CmdError)
    (b : boltTrialAPITx) (n1 n2 : String) (t : Trial)
    (hidem : ∀ s, ToLower (ToLower s) = ToLower s)
    (hcase : ToLower n1 = ToLower n2)
    (habsent : b.bucket.Get (ToLower n1) = none)
    (hname : t.name = ToLower n1)
    (hround : Unmarshal (Serialize t).1 = (some t, none))
    (hsave : (b.SaveTrial ToLower Serialize t).2 = none) :
    b.AddTrial ToLower Unmarshal n1 = (some (freshTrial (ToLower n1)), none)
    ∧ (b.SaveTrial ToLower Serialize t).1.AddTrial ToLower Unmarshal n2 = (some t, none)
    ∧ (b.SaveTrial ToLower Serialize t).1.GetTrial ToLower Unmarshal n2 = (some t, none)
    ∧ (b.SaveTrial ToLower Serialize t).1.SaveTrial ToLower Serialize t
        = ((b.SaveTrial ToLower Serialize t).1, none)
    ∧ (b.SaveTrial ToLower Serialize t).1.bucket.filter
          (fun kv => decide (kv.1 = ToLower n1))
        = [(ToLower n1, (Serialize t).1)]
    ∧ (b.SaveTrial ToLower Serialize t).1.bucket.filter
          (fun kv => decide (kv.1 ≠ ToLower n1))
        = b.bucket := by
  obtain ⟨hser, hres, hput⟩ := saveTrial_ok ToLower Serialize b t hsave
  have hkey : ToLower t.name = ToLower n1 := by rw [hname, hidem]
  rw [hkey] at hres hput
  have hno : ∀ kv ∈ b.bucket, kv.1 ≠ ToLower n1 :=
    ne_of_lookup_eq_none b.bucket (ToLower n1) (by simpa [Bucket.Get] using habsent)
  have hget : ∀ n, ToLower n = ToLower n1 →
      boltTrialAPITx.GetTrial ToLower Unmarshal
        { b with bucket := b.bucket.insert (ToLower n1) (Serialize t).1 } n
        = (some t, none) := by
    intro n hn
    unfold boltTrialAPITx.GetTrial
    simp only [Bucket.Get, hn, lookup_insert_self, hround]
  rw [hres]
  refine ⟨?_, ?_, ?_, ?_, ?_, ?_⟩
  · unfold boltTrialAPITx.AddTrial boltTrialAPITx.GetTrial
    simp [hidem, habsent]
  · unfold boltTrialAPITx.AddTrial
    simp only [hget (ToLower n2) (by rw [hidem, hcase])]
    simp
  · exact hget n2 hcase.symm
  · unfold boltTrialAPITx.SaveTrial
    rw [hser]
    simp only
    rw [hkey]
    unfold boltTrialAPITx.bucketPut at hput ⊢
    simp only at hput ⊢
    split_ifs at hput ⊢
    · simp at hput
    · simp at hput
    · simp at hput
    · simp at hput
    · simp [insert_insert]
  · exact filter_eq_insert b.bucket (ToLower n1) (Serialize t).1 hno
  · simp only
    rw [filter_ne_insert, List.filter_eq_self]
    intro kv hkv
    simpa using hno kv hkv

/-- Witness for C12: "Boss" and "boss" on an empty bucket.  The fresh trial is
named "boss"; once saved, it is the trial that `AddTrial "boss"` returns, and
the bucket holds the one entry under "boss". -/
theorem addTrial_idempotent_witness :
    asciiLower "Boss" = asciiLower "boss"
    ∧ boltTrialAPITx.AddTrial asciiLower exUnmarshalName ⟨true, []⟩ "Boss"
        = (some (freshTrial "boss"), none)
    ∧ (boltTrialAPITx.SaveTrial asciiLower exSerializeName ⟨true, []⟩
          (freshTrial "boss")).1.AddTrial asciiLower exUnmarshalName "boss"
        = (some (freshTrial "boss"), none)
    ∧ (boltTrialAPITx.SaveTrial asciiLower exSerializeName ⟨true, []⟩
          (freshTrial "boss")).1.bucket = [("boss", [98, 111, 115, 115])] :=
  ⟨by decide,
    (addTrial_idempotent asciiLower exUnmarshalName exSerializeName ⟨true, []⟩
      "Boss" "boss" (freshTrial "boss")
      asciiLower_idem
      (by decide) (by decide) (by decide) (by decide) (by decide)).1,
    (addTrial_idempotent asciiLower exUnmarshalName exSerializeName ⟨true, []⟩
      "Boss" "boss" (freshTrial "boss")
      asciiLower_idem
      (by decide) (by decide) (by decide) (by decide) (by decide)).2.1,
    by decide⟩


/-! ## Theorems: parsers -/

/-- Splitting into at most `n + 2` pieces: the first piece ends at the first
separator, and the rest is split into at most `n + 1` pieces. -/
theorem splitNChars_succ (sep : Char) (n : Nat) (cs : List Char) :
    splitNChars sep (n + 2) cs
      = if sep ∈ cs then
          cs.takeWhile (fun c => decide (c ≠ sep))
            :: splitNChars sep (n + 1) ((cs.dropWhile (fun c => decide (c ≠ sep))).drop 1)
        else [cs] := by
  induction cs with
  | nil => simp [splitNChars]
  | cons c cs ih =>
    by_cases hc : c = sep
    · subst hc
      simp [splitNChars, List.takeWhile_cons, List.dropWhile_cons]
    · have hne : sep ≠ c := fun h => hc h.symm
      by_cases hmem : sep ∈ cs
      · rw [if_pos hmem] at ih
        simp [splitNChars, hc, hne, ih, hmem, List.takeWhile_cons, List.dropWhile_cons]
      · rw [if_neg hmem] at ih
        simp [splitNChars, hc, hne, ih, hmem]

/-- Without the separator, the text before the first separator is the text. -/
theorem takeWhile_ne_of_not_mem (sep : Char) (cs : List Char) (h : sep ∉ cs) :
    cs.takeWhile (fun c => decide (c ≠ sep)) = cs
    ∧ cs.dropWhile (fun c => decide (c ≠ sep)) = [] := by
  induction cs with
  | nil => simp
  | cons c cs ih =>
    have hc : c ≠ sep := fun heq => h (heq ▸ List.mem_cons_self _ _)
    have hcs : sep ∉ cs := fun hm => h (List.mem_cons_of_mem _ hm)
    have hd : decide (c ≠ sep) = true := by simpa using hc
    obtain ⟨ih1, ih2⟩ := ih hcs
    rw [List.takeWhile_cons, List.dropWhile_cons, hd, if_pos rfl, if_pos rfl, ih1, ih2]
    exact ⟨rfl, rfl⟩

/-- `SplitN s sep 2`: two pieces around the first separator, or the text alone. -/
theorem SplitN_two (sep : Char) (s : String) :
    SplitN s sep 2
      = if sep ∈ s.data then [beforeFirst sep s, afterFirst sep s] else [s] := by
  unfold SplitN
  rw [splitNChars_succ sep 0 s.data]
  by_cases h : sep ∈ s.data
  · simp [h, splitNChars, beforeFirst, afterFirst]
  · simp [h]

/-- `SplitN s sep 3`: three pieces around the first two separators, two pieces
when there is one separator only, or the text alone. -/
theorem SplitN_three (sep : Char) (s : String) :
    SplitN s sep 3
      = if sep ∈ s.data then
          (if sep ∈ (afterFirst sep s).data then
            [beforeFirst sep s, beforeFirst sep (afterFirst sep s),
              afterFirst sep (afterFirst sep s)]
          else [beforeFirst sep s, afterFirst sep s])
        else [s] := by
  unfold SplitN
  rw [splitNChars_succ sep 1 s.data]
  by_cases h : sep ∈ s.data
  · rw [if_pos h, if_pos h]
    simp only [List.map_cons]
    rw [splitNChars_succ sep 0]
    by_cases h2 : sep ∈ (afterFirst sep s).data
    · have h3 : sep ∈ List.drop 1 (List.dropWhile (fun c => decide (c ≠ sep)) s.data) := h2
      rw [if_pos h2, if_pos h3]
      simp [splitNChars, beforeFirst, afterFirst]
    · have h3 : sep ∉ List.drop 1 (List.dropWhile (fun c => decide (c ≠ sep)) s.data) := h2
      rw [if_neg h2, if_neg h3]
      simp [beforeFirst, afterFirst]
  · simp [h]

/-- The pieces of an entry with a colon are its role, its count field and its
emoji. -/
theorem entry_parts (e : String) (h : ':' ∈ e.data) :
    2 ≤ (SplitN e ':' 3).length
    ∧ (SplitN e ':' 3).getD 0 "" = beforeFirst ':' e
    ∧ (SplitN e ':' 3).getD 1 "" = countField e
    ∧ (if (SplitN e ':' 3).length = 3 then (SplitN e ':' 3).getD 2 "" else "")
        = afterFirst ':' (afterFirst ':' e) := by
  rw [SplitN_three, if_pos h]
  by_cases h2 : ':' ∈ (afterFirst ':' e).data
  · rw [if_pos h2]
    simp [countField]
  · rw [if_neg h2]
    obtain ⟨htw, hdw⟩ := takeWhile_ne_of_not_mem ':' (afterFirst ':' e).data h2
    refine ⟨by simp, by simp, ?_, ?_⟩
    · simp only [countField, beforeFirst, htw]
      rfl
    · have hemo : afterFirst ':' (afterFirst ':' e)
          = String.mk (List.drop 1
              (List.dropWhile (fun c => decide (c ≠ ':')) (afterFirst ':' e).data)) := rfl
      rw [hemo, hdw, if_neg (by simp)]
      rfl

/-- One accepted entry: the loop of `parseRolesString` appends its triple. -/
theorem parseRolesLoop_cons_ok (Atoi : String → Int × Option CmdError)
    (e : String) (rest : List String) (acc : List roleCtEmo)
    (hne : e ≠ "") (hok : entryOk Atoi e) :
    parseRolesLoop Atoi (e :: rest) acc
      = parseRolesLoop Atoi rest (acc ++ [entryTriple Atoi e]) := by
  obtain ⟨hcolon, hatoi⟩ := hok
  obtain ⟨hlen, h0, h1, h2⟩ := entry_parts e hcolon
  have hlen2 : ¬ (SplitN e ':' 3).length < 2 := by omega
  rw [parseRolesLoop]
  simp only [hne, if_false, hlen2, h1]
  rcases ha : Atoi (countField e) with ⟨n, err⟩
  rw [ha] at hatoi
  simp only at hatoi
  subst hatoi
  simp only [h0, h2, entryTriple, ha]

/-- One rejected entry: the loop of `parseRolesString` stops with an error. -/
theorem parseRolesLoop_cons_bad (Atoi : String → Int × Option CmdError)
    (e : String) (rest : List String) (acc : List roleCtEmo)
    (hne : e ≠ "") (hbad : ¬ entryOk Atoi e) :
    (parseRolesLoop Atoi (e :: rest) acc).2 ≠ none := by
  rw [parseRolesLoop]
  simp only [hne, if_false]
  by_cases hcolon : ':' ∈ e.data
  · obtain ⟨hlen, _, h1, _⟩ := entry_parts e hcolon
    have hlen2 : ¬ (SplitN e ':' 3).length < 2 := by omega
    simp only [hlen2, if_false, h1]
    rcases ha : Atoi (countField e) with ⟨n, err⟩
    cases err with
    | none => exact absurd ⟨hcolon, by rw [ha]⟩ hbad
    | some err => simp
  · have hlen : (SplitN e ':' 3).length < 2 := by
      rw [SplitN_three, if_neg hcolon]
      simp
    simp [hlen]

/-- The loop of `parseRolesString` on entries that are all accepted. -/
theorem parseRolesLoop_all_ok (Atoi : String → Int × Option CmdError)
    (l : List String) (acc : List roleCtEmo)
    (hall : ∀ e ∈ l.filter (fun e => decide (e ≠ "")), entryOk Atoi e) :
    parseRolesLoop Atoi l acc
      = (acc ++ (l.filter (fun e => decide (e ≠ ""))).map (entryTriple Atoi), none) := by
  induction l generalizing acc with
  | nil => simp [parseRolesLoop]
  | cons e rest ih =>
    by_cases hne : e = ""
    · subst hne
      have hall2 : ∀ e ∈ rest.filter (fun e => decide (e ≠ "")), entryOk Atoi e := by
        intro x hx
        exact hall x (by simpa [List.filter_cons] using hx)
      rw [parseRolesLoop]
      simp only [if_true]
      rw [ih acc hall2]
      simp [List.filter_cons]
    · have hfil : (e :: rest).filter (fun e => decide (e ≠ ""))
          = e :: rest.filter (fun e => decide (e ≠ "")) := by
        simp [List.filter_cons, hne]
      rw [hfil] at hall ⊢
      have hok : entryOk Atoi e := hall e (List.mem_cons_self _ _)
      have hall2 : ∀ x ∈ rest.filter (fun e => decide (e ≠ "")), entryOk Atoi x :=
        fun x hx => hall x (List.mem_cons_of_mem _ hx)
      rw [parseRolesLoop_cons_ok Atoi e rest acc hne hok, ih _ hall2]
      simp

/-- The loop of `parseRolesString` on entries one of which is rejected. -/
theorem parseRolesLoop_some_bad (Atoi : String → Int × Option CmdError)
    (l : List String) (acc : List roleCtEmo)
    (hbad : ∃ e ∈ l.filter (fun e => decide (e ≠ "")), ¬ entryOk Atoi e) :
    (parseRolesLoop Atoi l acc).2 ≠ none := by
  induction l generalizing acc with
  | nil => simp at hbad
  | cons e rest ih =>
    by_cases hne : e = ""
    · subst hne
      rw [parseRolesLoop]
      simp only [if_true]
      apply ih
      obtain ⟨x, hx, hxbad⟩ := hbad
      exact ⟨x, by simpa [List.filter_cons] using hx, hxbad⟩
    · by_cases hok : entryOk Atoi e
      · rw [parseRolesLoop_cons_ok Atoi e rest acc hne hok]
        apply ih
        obtain ⟨x, hx, hxbad⟩ := hbad
        have hx2 : x = e ∨ x ∈ rest.filter (fun e => decide (e ≠ "")) := by
          simpa [List.filter_cons, hne] using hx
        rcases hx2 with rfl | hx2
        · exact absurd hok hxbad
        · exact ⟨x, hx2, hxbad⟩
      · exact parseRolesLoop_cons_bad Atoi e rest acc hne hok

/-- `decimalAtoi` accepts a text exactly when the text denotes a decimal
integer in the range of `int`, and then returns that integer. -/
theorem decimalAtoi_spec (s : String) :
    ((decimalAtoi s).2 = none ↔ ∃ n, decimalInteger s = some n ∧ inIntRange n)
    ∧ (∀ n, decimalInteger s = some n → inIntRange n → decimalAtoi s = (n, none)) := by
  unfold decimalAtoi decimalInteger inIntRange
  simp only
  generalize (match s.data with
    | '-' :: rest => (true, rest)
    | '+' :: rest => (false, rest)
    | cs => (false, cs) : Bool × List Char) = signed
  cases hd : digitsValue signed.2 with
  | none => simp
  | some k =>
    simp only [Option.some.injEq]
    generalize (if signed.1 = true then -(k : Int) else (k : Int)) = v
    by_cases h1 : v < -9223372036854775808
    · simp only [h1, if_true]
      constructor
      · constructor
        · intro h
          simp at h
        · rintro ⟨n, hn, hlo, _⟩
          omega
      · rintro n hn ⟨hlo, _⟩
        omega
    · by_cases h2 : v > 9223372036854775807
      · simp only [h1, h2, if_true, if_false]
        constructor
        · constructor
          · intro h
            simp at h
          · rintro ⟨n, hn, _, hhi⟩
            omega
        · rintro n hn ⟨_, hhi⟩
          omega
      · simp only [h1, h2, if_false]
        constructor
        · constructor
          · intro _
            exact ⟨v, rfl, by omega, by omega⟩
          · intro _
            trivial
        · rintro n hn _
          rw [hn]

/-- Counterexample to C15 as stated: the entry "tank:9223372036854775808" has a
colon and its count field is a decimal integer, yet `parseRolesString` fails
(the integer is outside the range of `int`); and the entry "tank:-1", whose
count field is the integer `-1`, yields the count 18446744073709551615. -/
theorem parseRolesString_count_not_the_integer :
    ':' ∈ "tank:9223372036854775808".data
    ∧ decimalInteger (countField "tank:9223372036854775808") = some 9223372036854775808
    ∧ (parseRolesString decimalAtoi "tank:9223372036854775808").2 ≠ none
    ∧ decimalInteger (countField "tank:-1") = some (-1)
    ∧ (parseRolesString decimalAtoi "tank:-1").1.map (fun r => r.ct)
        = [18446744073709551615] := by
  decide

/-- The conversion to `uint64` keeps an integer from `0` to `2^64 - 1`. -/
theorem toUint64_of_nonneg (n : Int) (h0 : 0 ≤ n) (h1 : n < 18446744073709551616) :
    (toUint64 n : Int) = n := by
  unfold toUint64
  omega

/-- The conversion to `uint64` wraps a negative integer around. -/
theorem toUint64_of_neg (k : Nat) (h0 : 0 < k) (h1 : k ≤ 18446744073709551616) :
    toUint64 (-(k : Int)) = 18446744073709551616 - k := by
  unfold toUint64
  omega

/-- C15, as the code has it.  With the entries the non-empty pieces of the
trimmed input between commas, `parseRolesString` fails when some entry has no
colon or has a count field that is not a decimal integer in the range of a
64-bit `int`; otherwise it returns, without error, one triple per entry, in
order (duplicate roles included): the role is the text before the first colon,
the count the decimal integer between the first and the second colon converted
to `uint64` (the integer itself when it is not negative, `2^64 + n` for a
negative `n`), the emoji all that follows the second colon (empty when there
is none, colons included when there are more). -/
theorem parseRolesString_decimal_entries (args : String) :
    ((∃ e ∈ (Split (TrimSpace args) ',').filter (fun e => decide (e ≠ "")),
        ':' ∉ e.data ∨ decimalInteger (countField e) = none
          ∨ ∃ n, decimalInteger (countField e) = some n ∧ ¬ inIntRange n) →
      (parseRolesString decimalAtoi args).2 ≠ none)
    ∧ ((∀ e ∈ (Split (TrimSpace args) ',').filter (fun e => decide (e ≠ "")),
        ':' ∈ e.data ∧ ∃ n, decimalInteger (countField e) = some n ∧ inIntRange n) →
      parseRolesString decimalAtoi args
          = (((Split (TrimSpace args) ',').filter (fun e => decide (e ≠ ""))).map
              (fun e => { role := beforeFirst ':' e
                          ct := toUint64 ((decimalInteger (countField e)).getD 0)
                          emo := afterFirst ':' (afterFirst ':' e) }), none)
        ∧ (parseRolesString decimalAtoi args).1.length
          = ((Split (TrimSpace args) ',').filter (fun e => decide (e ≠ ""))).length
        ∧ (∀ e ∈ (Split (TrimSpace args) ',').filter (fun e => decide (e ≠ "")),
            ∀ n, decimalInteger (countField e) = some n →
              (0 ≤ n → (toUint64 n : Int) = n)
              ∧ (n < 0 → (toUint64 n : Int) = 18446744073709551616 + n))) := by
  constructor
  · rintro ⟨e, he, hbad⟩
    apply parseRolesLoop_some_bad
    refine ⟨e, he, ?_⟩
    rintro ⟨h1, h2⟩
    obtain ⟨n, hn, hr⟩ := (decimalAtoi_spec (countField e)).1.mp h2
    rcases hbad with hbad | hbad | ⟨m, hm, hnr⟩
    · exact hbad h1
    · rw [hn] at hbad
      exact absurd hbad (by simp)
    · rw [hn] at hm
      have hmn : n = m := Option.some.inj hm
      subst hmn
      exact hnr hr
  · intro hall
    have hok : ∀ e ∈ (Split (TrimSpace args) ',').filter (fun e => decide (e ≠ "")),
        entryOk decimalAtoi e := by
      intro e he
      obtain ⟨hcolon, n, hn, hr⟩ := hall e he
      exact ⟨hcolon, (decimalAtoi_spec (countField e)).1.mpr ⟨n, hn, hr⟩⟩
    have hres := parseRolesLoop_all_ok decimalAtoi (Split (TrimSpace args) ',') [] hok
    unfold parseRolesString
    rw [hres]
    refine ⟨?_, by simp, ?_⟩
    · simp only [List.nil_append, Prod.mk.injEq, and_true]
      apply List.map_congr_left
      intro e he
      obtain ⟨_, n, hn, hr⟩ := hall e he
      have hval := (decimalAtoi_spec (countField e)).2 n hn hr
      simp only [entryTriple, hval, hn, Option.getD_some]
    · intro e he n hn
      obtain ⟨_, m, hm, hlo, hhi⟩ := hall e he
      rw [hn] at hm
      have hmn : n = m := Option.some.inj hm
      subst hmn
      unfold toUint64
      constructor
      · intro h0
        omega
      · intro h0
        omega

/-- Witness for C15: three entries, an empty piece between two commas, and an
emoji that contains a colon; and an input with an entry without a colon. -/
theorem parseRolesString_decimal_entries_witness :
    parseRolesString decimalAtoi " tank:2:T,heal:1,,dd:3:a:b "
      = ([⟨"tank", 2, "T"⟩, ⟨"heal", 1, ""⟩, ⟨"dd", 3, "a:b"⟩], none)
    ∧ (parseRolesString decimalAtoi "tank:2,heal").2 ≠ none :=
  ⟨((parseRolesString_decimal_entries " tank:2:T,heal:1,,dd:3:a:b ").2
      (by unfold inIntRange; decide)).1,
    (parseRolesString_decimal_entries "tank:2,heal").1
      ⟨"heal", by decide, Or.inl (by decide)⟩⟩

/-- C20: `parseRolesString` does not reject negative counts.  On an input all
of whose entries are accepted, the capacity returned for an entry is the
integer `n` that `strconv.Atoi` reads from its count field, modulo `2^64`: it is
`n` for `0 ≤ n < 2^64` and `2^64 - k` for `n = -k` with `0 < k ≤ 2^64`.  The
input "tank:-1" is accepted and yields the capacity 18446744073709551615. -/
theorem parseRolesString_negative_count (Atoi : String → Int × Option CmdError)
    (args : String)
    (hall : ∀ e ∈ (Split (TrimSpace args) ',').filter (fun e => decide (e ≠ "")),
      ':' ∈ e.data ∧ (Atoi (countField e)).2 = none) :
    (parseRolesString Atoi args).2 = none
    ∧ (parseRolesString Atoi args).1.map (fun r => r.ct)
        = ((Split (TrimSpace args) ',').filter (fun e => decide (e ≠ ""))).map
            (fun e => ((Atoi (countField e)).1 % 18446744073709551616).toNat)
    ∧ (∀ n : Int, 0 ≤ n → n < 18446744073709551616 → (toUint64 n : Int) = n)
    ∧ (∀ k : Nat, 0 < k → k ≤ 18446744073709551616 →
        toUint64 (-(k : Int)) = 18446744073709551616 - k)
    ∧ parseRolesString decimalAtoi "tank:-1"
        = ([⟨"tank", 18446744073709551615, ""⟩], none) := by
  have hres := parseRolesLoop_all_ok Atoi (Split (TrimSpace args) ',') [] hall
  refine ⟨?_, ?_, toUint64_of_nonneg, toUint64_of_neg, by decide⟩
  · unfold parseRolesString
    rw [hres]
  · unfold parseRolesString
    rw [hres]
    simp only [List.nil_append, List.map_map]
    rfl

/-- Witness for C20: the capacities of "tank:-1,heal:3". -/
theorem parseRolesString_negative_count_witness :
    (parseRolesString decimalAtoi "tank:-1,heal:3").2 = none
    ∧ (parseRolesString decimalAtoi "tank:-1,heal:3").1.map (fun r => r.ct)
        = [18446744073709551615, 3] :=
  ⟨(parseRolesString_negative_count decimalAtoi "tank:-1,heal:3" (by decide)).1,
    (parseRolesString_negative_count decimalAtoi "tank:-1,heal:3" (by decide)).2.1⟩

/-- Counterexample to C16 as stated: the space after the comma stays in the
role name.  The input "tank:2, heal:1" is accepted and yields the roles "tank"
and " heal"; the second begins with whitespace, and the result is not that of
"tank:2,heal:1". -/
theorem parseRolesString_keeps_space_after_comma :
    parseRolesString decimalAtoi "tank:2, heal:1"
      = ([⟨"tank", 2, ""⟩, ⟨" heal", 1, ""⟩], none)
    ∧ (" heal".data.head?.map isSpace) = some true
    ∧ parseRolesString decimalAtoi "tank:2,heal:1"
      = ([⟨"tank", 2, ""⟩, ⟨"heal", 1, ""⟩], none)
    ∧ parseRolesString decimalAtoi "tank:2, heal:1"
      ≠ parseRolesString decimalAtoi "tank:2,heal:1" := by
  decide

/-- Leading characters that are all dropped do not matter. -/
theorem dropWhile_append_of_all (p : Char → Bool) (ws l : List Char)
    (h : ∀ c ∈ ws, p c = true) :
    (ws ++ l).dropWhile p = l.dropWhile p := by
  induction ws with
  | nil => rfl
  | cons c ws ih =>
    have hc : p c = true := h c (List.mem_cons_self _ _)
    rw [List.cons_append, List.dropWhile_cons, hc, if_pos rfl]
    exact ih (fun x hx => h x (List.mem_cons_of_mem _ hx))

/-- When something is left of a list, what is appended to it is kept. -/
theorem dropWhile_append_of_ne_nil (p : Char → Bool) (l t : List Char)
    (h : l.dropWhile p ≠ []) :
    (l ++ t).dropWhile p = l.dropWhile p ++ t := by
  induction l with
  | nil => simp at h
  | cons c l ih =>
    by_cases hc : p c = true
    · rw [List.dropWhile_cons, hc, if_pos rfl] at h
      rw [List.cons_append, List.dropWhile_cons, List.dropWhile_cons, hc, if_pos rfl,
        if_pos rfl]
      exact ih h
    · rw [List.cons_append, List.dropWhile_cons, List.dropWhile_cons, if_neg hc, if_neg hc]
      rfl

/-- A list of which nothing is left has only dropped characters. -/
theorem all_of_dropWhile_eq_nil (p : Char → Bool) (l : List Char)
    (h : l.dropWhile p = []) : ∀ c ∈ l, p c = true := by
  induction l with
  | nil => simp
  | cons c l ih =>
    by_cases hc : p c = true
    · rw [List.dropWhile_cons, hc, if_pos rfl] at h
      intro x hx
      rcases List.mem_cons.mp hx with rfl | hx
      · exact hc
      · exact ih h x hx
    · rw [List.dropWhile_cons, if_neg hc] at h
      exact absurd h (by simp)

/-- `TrimSpace` does not see whitespace put before and after its argument. -/
theorem TrimSpace_pad (ws1 s ws2 : String)
    (h1 : ∀ c ∈ ws1.data, isSpace c = true) (h2 : ∀ c ∈ ws2.data, isSpace c = true) :
    TrimSpace (ws1 ++ s ++ ws2) = TrimSpace s := by
  have hr2 : ∀ c ∈ ws2.data.reverse, isSpace c = true :=
    fun c hc => h2 c (List.mem_reverse.mp hc)
  unfold TrimSpace
  congr 2
  rw [String.data_append, String.data_append, List.append_assoc,
    dropWhile_append_of_all isSpace ws1.data _ h1]
  by_cases hs : s.data.dropWhile isSpace = []
  · have hall : ∀ c ∈ s.data ++ ws2.data, isSpace c = true := by
      intro c hc
      rcases List.mem_append.mp hc with hc | hc
      · exact all_of_dropWhile_eq_nil isSpace s.data hs c hc
      · exact h2 c hc
    have h3 := dropWhile_append_of_all isSpace (s.data ++ ws2.data) [] hall
    rw [List.append_nil] at h3
    rw [h3, hs]
    rfl
  · rw [dropWhile_append_of_ne_nil isSpace s.data ws2.data hs, List.reverse_append,
      dropWhile_append_of_all isSpace ws2.data.reverse _ hr2]

/-- C16, as the code has it.  Only the argument string as a whole is trimmed:
whitespace put before the first entry and after the last entry does not change
the result of `parseRolesString`.  Whitespace next to a comma is kept: the
input "tank:2, heal:1" yields the roles "tank" and " heal". -/
theorem parseRolesString_trims_ends (Atoi : String → Int × Option CmdError)
    (ws1 args ws2 : String)
    (h1 : ∀ c ∈ ws1.data, isSpace c = true) (h2 : ∀ c ∈ ws2.data, isSpace c = true) :
    parseRolesString Atoi (ws1 ++ args ++ ws2) = parseRolesString Atoi args
    ∧ (parseRolesString decimalAtoi "tank:2, heal:1").1.map (fun r => r.role)
        = ["tank", " heal"] := by
  constructor
  · unfold parseRolesString
    rw [TrimSpace_pad ws1 args ws2 h1 h2]
  · decide

/-- Witness for C16: blanks and a line end around "tank:2,heal:1". -/
theorem parseRolesString_trims_ends_witness :
    parseRolesString decimalAtoi ("  " ++ "tank:2,heal:1" ++ " \n")
      = parseRolesString decimalAtoi "tank:2,heal:1" :=
  (parseRolesString_trims_ends decimalAtoi "  " "tank:2,heal:1" " \n"
    (by decide) (by decide)).1

/-- The loop of `set` on tokens that all have an "=". -/
theorem setArgLoop_all_ok (l : List String) (acc : List argPair)
    (hall : ∀ tok ∈ l.filter (fun a => decide (a ≠ "")), '=' ∈ tok.data) :
    setArgLoop l acc = (acc ++ (l.filter (fun a => decide (a ≠ ""))).map argPairOf, none) := by
  induction l generalizing acc with
  | nil => simp [setArgLoop]
  | cons a rest ih =>
    by_cases hne : a = ""
    · subst hne
      have hall2 : ∀ tok ∈ rest.filter (fun a => decide (a ≠ "")), '=' ∈ tok.data := by
        intro x hx
        exact hall x (by simpa [List.filter_cons] using hx)
      rw [setArgLoop]
      simp only [if_true]
      rw [ih acc hall2]
      simp [List.filter_cons]
    · have hfil : (a :: rest).filter (fun a => decide (a ≠ ""))
          = a :: rest.filter (fun a => decide (a ≠ "")) := by
        simp [List.filter_cons, hne]
      rw [hfil] at hall ⊢
      have hok : '=' ∈ a.data := hall a (List.mem_cons_self _ _)
      have hall2 : ∀ x ∈ rest.filter (fun a => decide (a ≠ "")), '=' ∈ x.data :=
        fun x hx => hall x (List.mem_cons_of_mem _ hx)
      rw [setArgLoop]
      simp only [hne, if_false, SplitN_two, if_pos hok]
      rw [ih _ hall2]
      simp [argPairOf]

/-- The loop of `set` on tokens one of which has no "=": it stops with the
parse error of such a token. -/
theorem setArgLoop_some_bad (l : List String) (acc : List argPair)
    (hbad : ∃ tok ∈ l.filter (fun a => decide (a ≠ "")), '=' ∉ tok.data) :
    ∃ tok ∈ l.filter (fun a => decide (a ≠ "")), '=' ∉ tok.data
      ∧ (setArgLoop l acc).2
        = some (CmdError.other ("could not parse setting '" ++ tok ++ "'")) := by
  induction l generalizing acc with
  | nil => simp at hbad
  | cons a rest ih =>
    by_cases hne : a = ""
    · subst hne
      have hbad2 : ∃ tok ∈ rest.filter (fun a => decide (a ≠ "")), '=' ∉ tok.data := by
        obtain ⟨x, hx, hxbad⟩ := hbad
        exact ⟨x, by simpa [List.filter_cons] using hx, hxbad⟩
      obtain ⟨tok, htok, hnot, hres⟩ := ih acc hbad2
      refine ⟨tok, by simpa [List.filter_cons] using htok, hnot, ?_⟩
      rw [setArgLoop]
      simp only [if_true]
      exact hres
    · have hfil : (a :: rest).filter (fun a => decide (a ≠ ""))
          = a :: rest.filter (fun a => decide (a ≠ "")) := by
        simp [List.filter_cons, hne]
      rw [hfil] at hbad ⊢
      by_cases hok : '=' ∈ a.data
      · have hbad2 : ∃ tok ∈ rest.filter (fun a => decide (a ≠ "")), '=' ∉ tok.data := by
          obtain ⟨x, hx, hxbad⟩ := hbad
          rcases List.mem_cons.mp hx with rfl | hx
          · exact absurd hok hxbad
          · exact ⟨x, hx, hxbad⟩
        obtain ⟨tok, htok, hnot, hres⟩ := ih (acc ++ [argPairOf a]) hbad2
        refine ⟨tok, List.mem_cons_of_mem _ htok, hnot, ?_⟩
        rw [setArgLoop]
        simp only [hne, if_false, SplitN_two, if_pos hok]
        exact hres
      · refine ⟨a, List.mem_cons_self _ _, hok, ?_⟩
        rw [setArgLoop]
        simp only [hne, if_false, SplitN_two, if_neg hok]

/-- C14: the command `set` on its argument string, with the tokens the
non-empty pieces of the trimmed argument between single spaces.  If some token
has no "=", the command fails with the parse error of such a token; otherwise,
if there is no token, it fails with "no settings to save"; in both cases it
makes no call to the guild store.  Otherwise the loop yields one pair per
token, in order, split at the first "=", and the first call to the store is
the opening of a writable transaction. -/
theorem set_parses_arguments (d : ConfigDeps) (msg : Message) :
    ((∃ tok ∈ (Split (TrimSpace msg.contents) ' ').filter (fun a => decide (a ≠ "")),
        '=' ∉ tok.data) →
      ∃ tok ∈ (Split (TrimSpace msg.contents) ' ').filter (fun a => decide (a ≠ "")),
        '=' ∉ tok.data
        ∧ configCommands.set d msg
          = ([], ⟨d.UserMentionString msg.userID, "", 0, [], 0⟩,
              some (CmdError.other ("could not parse setting '" ++ tok ++ "'"))))
    ∧ ((∀ tok ∈ (Split (TrimSpace msg.contents) ' ').filter (fun a => decide (a ≠ "")),
        '=' ∈ tok.data) →
      setArgLoop (Split (TrimSpace msg.contents) ' ') []
          = (((Split (TrimSpace msg.contents) ' ').filter (fun a => decide (a ≠ ""))).map
              (fun tok => { key := beforeFirst '=' tok, val := afterFirst '=' tok }), none)
        ∧ ((Split (TrimSpace msg.contents) ' ').filter (fun a => decide (a ≠ "")) = [] →
            configCommands.set d msg
              = ([], ⟨d.UserMentionString msg.userID, "", 0, [], 0⟩,
                  some (CmdError.other "no settings to save")))
        ∧ ((Split (TrimSpace msg.contents) ' ').filter (fun a => decide (a ≠ "")) ≠ [] →
            (configCommands.set d msg).1.head? = some (GuildEvent.newTransaction true))) := by
  constructor
  · intro hbad
    obtain ⟨tok, htok, hnot, hres⟩ := setArgLoop_some_bad _ [] hbad
    refine ⟨tok, htok, hnot, ?_⟩
    unfold configCommands.set
    rcases hl : setArgLoop (Split (TrimSpace msg.contents) ' ') [] with ⟨ps, e⟩
    rw [hl] at hres
    simp only at hres
    subst hres
    simp only [hl]
  · intro hall
    have hres := setArgLoop_all_ok _ [] hall
    rw [List.nil_append] at hres
    refine ⟨hres, ?_, ?_⟩
    · intro hnil
      unfold configCommands.set
      simp only [hres, hnil, List.map_nil, List.length_nil, if_true]
    · intro hne
      have hlen : ¬ (((Split (TrimSpace msg.contents) ' ').filter
          (fun a => decide (a ≠ ""))).map argPairOf).length = 0 := by
        rw [List.length_map]
        exact fun h0 => hne (List.length_eq_zero.mp h0)
      unfold configCommands.set
      simp only [hres, hlen, if_false]
      split
      · rfl
      · split
        · rfl
        · split
          · rfl
          · split
            · rfl
            · split <;> rfl

/-- Witness for C14: "foo=1 bar=2" yields two pairs and the store is called;
"badtoken" is a parse error and the empty argument is "no settings to save",
both without any call to the store. -/
theorem set_parses_arguments_witness :
    setArgLoop (Split (TrimSpace "foo=1 bar=2") ' ') []
      = ([⟨"foo", "1"⟩, ⟨"bar", "2"⟩], none)
    ∧ (configCommands.set exConfigDeps ⟨1, 2, 3, 4, "foo=1 bar=2"⟩).1.head?
      = some (GuildEvent.newTransaction true)
    ∧ (∃ tok, configCommands.set exConfigDeps ⟨1, 2, 3, 4, "badtoken"⟩
        = ([], ⟨"@user", "", 0, [], 0⟩,
            some (CmdError.other ("could not parse setting '" ++ tok ++ "'"))))
    ∧ configCommands.set exConfigDeps ⟨1, 2, 3, 4, ""⟩
      = ([], ⟨"@user", "", 0, [], 0⟩, some (CmdError.other "no settings to save")) :=
  ⟨((set_parses_arguments exConfigDeps ⟨1, 2, 3, 4, "foo=1 bar=2"⟩).2 (by decide)).1,
    ((set_parses_arguments exConfigDeps ⟨1, 2, 3, 4, "foo=1 bar=2"⟩).2 (by decide)).2.2
      (by decide),
    ((set_parses_arguments exConfigDeps ⟨1, 2, 3, 4, "badtoken"⟩).1
      ⟨"badtoken", by decide, by decide⟩).imp (fun _ hx => hx.2.2),
    ((set_parses_arguments exConfigDeps ⟨1, 2, 3, 4, ""⟩).2 (by decide)).2.1 (by decide)⟩

/-! ## Theorems: display and withdraw -/

/-- One iteration of the loop of `formatTrialDisplay`, in terms of the active
and the overflow names. -/
theorem formatTrialDisplayStep_eq (ToLower : String → String) (trial : Trial)
    (rc : RoleCount) (f o : List EmbedField) :
    formatTrialDisplayStep ToLower trial.signups (f, o) rc
      = (f ++ [{ Name := "*" ++ rc.role ++ "* ("
                  ++ toString (activeNames ToLower trial rc).length
                  ++ "/" ++ toString rc.count ++ ")"
                 Val := if (activeNames ToLower trial rc).length = 0 then "(empty)\n_ _\n"
                  else rc.emoji
                    ++ String.intercalate ("\n" ++ rc.emoji) (activeNames ToLower trial rc)
                    ++ "\n_ _\n" }],
         o ++ (if 0 < (overflowNames ToLower trial rc).length then
            [{ Name := "*Overflow " ++ rc.role ++ "* ("
                  ++ toString (overflowNames ToLower trial rc).length ++ ")"
               Val := rc.emoji
                  ++ String.intercalate ("\n" ++ rc.emoji) (overflowNames ToLower trial rc)
                  ++ "\n_ _\n" }]
          else [])) := by
  unfold formatTrialDisplayStep
  rw [getTrialRoleSignups_eq]
  have ha : (signupsForRole ToLower rc.role trial.signups false).take rc.count
      = activeNames ToLower trial rc := rfl
  have ho : (signupsForRole ToLower rc.role trial.signups false).drop rc.count
      = overflowNames ToLower trial rc := rfl
  simp only [ha, ho]
  by_cases h1 : (activeNames ToLower trial rc).length = 0
  · by_cases h2 : 0 < (overflowNames ToLower trial rc).length
    · simp [h1, h2]
    · simp [h1, h2]
  · have h1' : 0 < (activeNames ToLower trial rc).length := Nat.pos_of_ne_zero h1
    by_cases h2 : 0 < (overflowNames ToLower trial rc).length
    · simp [h1, h1', h2]
    · simp [h1, h1', h2]

/-- The loop of `formatTrialDisplay`, started from any pair of field lists. -/
theorem formatTrialDisplay_foldl (ToLower : String → String) (trial : Trial)
    (rcs : List RoleCount) (f o : List EmbedField) :
    rcs.foldl (formatTrialDisplayStep ToLower trial.signups) (f, o)
      = (f ++ rcs.map (fun rc =>
            { Name := "*" ++ rc.role ++ "* (" ++ toString (activeNames ToLower trial rc).length
                ++ "/" ++ toString rc.count ++ ")"
              Val := if (activeNames ToLower trial rc).length = 0 then "(empty)\n_ _\n"
                else rc.emoji
                  ++ String.intercalate ("\n" ++ rc.emoji) (activeNames ToLower trial rc)
                  ++ "\n_ _\n" }),
         o ++ (rcs.filter (fun rc => decide (0 < (overflowNames ToLower trial rc).length))).map
            (fun rc =>
              { Name := "*Overflow " ++ rc.role ++ "* ("
                  ++ toString (overflowNames ToLower trial rc).length ++ ")"
                Val := rc.emoji
                  ++ String.intercalate ("\n" ++ rc.emoji) (overflowNames ToLower trial rc)
                  ++ "\n_ _\n" })) := by
  induction rcs generalizing f o with
  | nil => simp
  | cons rc rcs ih =>
    rw [List.foldl_cons, formatTrialDisplayStep_eq, ih]
    by_cases h2 : 0 < (overflowNames ToLower trial rc).length
    · simp [h2, List.filter_cons]
    · simp [h2, List.filter_cons]

/-- C19: the fields of `formatTrialDisplay` are one role field per role count,
in the order of the role counts, headed "*role* (k/count)" with `k` the number
of active names and listing the active names in insertion order ("(empty)" when
there is none), followed by one field headed "*Overflow role* (m)" for each
role count that has `m > 0` overflow names, in the same order, listing the
overflow names.  With two tank slots and the signups A, B, C: "*tank* (2/2)"
lists A and B, "*Overflow tank* (1)" lists C. -/
theorem formatTrialDisplay_fields (ToLower : String → String)
    (stateString : TrialState → String) (trial : Trial) (withState : Bool) :
    (formatTrialDisplay ToLower stateString trial withState).Fields
      = trial.roleCounts.map (fun rc =>
          { Name := "*" ++ rc.role ++ "* (" ++ toString (activeNames ToLower trial rc).length
              ++ "/" ++ toString rc.count ++ ")"
            Val := if (activeNames ToLower trial rc).length = 0 then "(empty)\n_ _\n"
              else rc.emoji
                ++ String.intercalate ("\n" ++ rc.emoji) (activeNames ToLower trial rc)
                ++ "\n_ _\n" })
        ++ (trial.roleCounts.filter
              (fun rc => decide (0 < (overflowNames ToLower trial rc).length))).map
            (fun rc =>
              { Name := "*Overflow " ++ rc.role ++ "* ("
                  ++ toString (overflowNames ToLower trial rc).length ++ ")"
                Val := rc.emoji
                  ++ String.intercalate ("\n" ++ rc.emoji) (overflowNames ToLower trial rc)
                  ++ "\n_ _\n" })
    ∧ (formatTrialDisplay asciiLower stateString
          ⟨"raid1", "", "", "", TrialState.Open, [⟨"tank", 2, ""⟩],
            [⟨"A", "tank"⟩, ⟨"B", "tank"⟩, ⟨"C", "tank"⟩]⟩ withState).Fields
        = [⟨"*tank* (2/2)", "A\nB\n_ _\n"⟩, ⟨"*Overflow tank* (1)", "C\n_ _\n"⟩] := by
  constructor
  · unfold formatTrialDisplay
    simp only
    rw [formatTrialDisplay_foldl]
    simp
  · unfold formatTrialDisplay
    simp only
    decide

end SignupBot
